import Mathlib

/-! Hand-controlled mouse: a shallow embedding of `main.cpp`.

The firmware is a polling loop over a handful of globals.  The embedding keeps
the globals in one record (`Globals`, holding the anonymous `systemState`
struct as `SystemState`), turns every routine into a function from the globals
to the new globals together with the list of externally visible events it
produced (HID calls, serial lines, blocking delays), and passes what the
routines read from the outside world (the clock, the pin levels, the sensor
sample, the connection flag) as arguments.

Conventions:
* `float` values are exact rationals (`ℚ`);
* `unsigned long` timestamps are naturals below `2 ^ 32`; the clock value is
  `millis t = t % 2 ^ 32` for a true time `t`, and the C expression
  `millis() - ref` is `elapsed`, subtraction modulo `2 ^ 32`;
* `int` / `int16_t` values are integers (`Int`);
* all `millis()` reads of one routine invocation return the same value; the
  only thing that moves the clock inside a tick is `delay`.
-/

namespace AirMouse

/-! ## Constants -/

/-- Source: `const float GYRO_SENSITIVITY = 0.0022f`. -/
def GYRO_SENSITIVITY : ℚ := 22 / 10000
/-- Source: `const int GYRO_DEADZONE = 400`. -/
def GYRO_DEADZONE : Int := 400
/-- Source: `const float SMOOTHING = 0.15f`. -/
def SMOOTHING : ℚ := 15 / 100
/-- Source: `const int8_t X_AXIS_CORRECTION = -1`. -/
def X_AXIS_CORRECTION : Int := -1
/-- Source: `const int8_t Y_AXIS_CORRECTION = 1`. -/
def Y_AXIS_CORRECTION : Int := 1
/-- Source: `const float SCROLL_SENSITIVITY = 0.15f`. -/
def SCROLL_SENSITIVITY : ℚ := 15 / 100
/-- Source: `const float SCROLL_SMOOTHING = 0.4f`. -/
def SCROLL_SMOOTHING : ℚ := 4 / 10
/-- Source: `const float SCROLL_THRESHOLD = 0.2f`. -/
def SCROLL_THRESHOLD : ℚ := 2 / 10
/-- Source: `const int DEBOUNCE_DELAY = 50`. -/
def DEBOUNCE_DELAY : Nat := 50
/-- Source: `const int MULTI_CLICK_TIMEOUT = 400`. -/
def MULTI_CLICK_TIMEOUT : Nat := 400

/-- Number of values of an `unsigned long` (32 bits on the target). -/
def ULONG_MOD : Nat := 2 ^ 32

/-- Value returned by `millis()` at true time `t` (milliseconds since boot). -/
def millis (t : Nat) : Nat := t % ULONG_MOD

/-- The C expression `ms - ref` on `unsigned long` operands. -/
def elapsed (ms ref : Nat) : Nat :=
  (ms % ULONG_MOD + ULONG_MOD - ref % ULONG_MOD) % ULONG_MOD

/-! ## Events visible outside the core -/

/-- The button codes `MOUSE_LEFT` and `MOUSE_RIGHT`. -/
inductive MouseButton
  | MOUSE_LEFT
  | MOUSE_RIGHT
  deriving DecidableEq, Repr

/-- The lines the firmware writes to the serial port. -/
inductive SerialMsg
  | leftSingleClick
  | leftDoubleClick
  | scrollModeOn
  | scrollModeOff
  | cursorFrozen
  | cursorUnfrozen
  | leftButtonPress (count : Int)
  | rightButtonPress (count : Int)
  | rightSingleClick
  deriving DecidableEq, Repr

/-- One externally visible action: `bleMouse.move(x, y, wheel, hWheel)` with the
values passed at the call site, `bleMouse.click(b)`, `delay(ms)`, or a serial
line. -/
inductive Event
  | move (x y wheel hWheel : ℚ)
  | click (b : MouseButton)
  | delay (ms : Nat)
  | serial (m : SerialMsg)
  deriving DecidableEq, Repr

/-! ## State -/

/-- The anonymous struct `systemState`. -/
structure SystemState where
  leftPressed : Bool
  lastLeftPress : Nat
  lastLeftRelease : Nat
  leftFirstClickTime : Nat
  leftClickCount : Int
  rightPressed : Bool
  lastRightPress : Nat
  lastRightRelease : Nat
  rightFirstClickTime : Nat
  rightClickCount : Int
  scrollMode : Bool
  cursorFrozen : Bool
  deriving DecidableEq, Repr

/-- All mutable globals of the program. -/
structure Globals where
  ax : Int
  ay : Int
  az : Int
  gx : Int
  gy : Int
  gz : Int
  rawX : ℚ
  rawY : ℚ
  filteredX : ℚ
  filteredY : ℚ
  scrollX : ℚ
  scrollY : ℚ
  systemState : SystemState
  deriving DecidableEq, Repr

/-- The six values `mpu.getMotion6` writes. -/
structure Motion6 where
  ax : Int
  ay : Int
  az : Int
  gx : Int
  gy : Int
  gz : Int
  deriving DecidableEq, Repr

/-- What one pass of `loop` reads from the outside world. -/
structure Input where
  /-- true time at which the pass starts -/
  now : Nat
  /-- answer of `bleMouse.isConnected()` at the top of `loop` -/
  connected : Bool
  /-- answer of `bleMouse.isConnected()` as read again inside the left click handlers -/
  connectedAtClick : Bool
  /-- the sensor sample -/
  sample : Motion6
  /-- whether `digitalRead(LEFT_BUTTON_PIN) == LOW` -/
  leftLow : Bool
  /-- whether `digitalRead(RIGHT_BUTTON_PIN) == LOW` -/
  rightLow : Bool
  deriving DecidableEq, Repr

/-- The initial values of the globals. -/
def initialState : Globals :=
  { ax := 0, ay := 0, az := 0, gx := 0, gy := 0, gz := 0
    rawX := 0, rawY := 0, filteredX := 0, filteredY := 0, scrollX := 0, scrollY := 0
    systemState :=
      { leftPressed := false, lastLeftPress := 0, lastLeftRelease := 0
        leftFirstClickTime := 0, leftClickCount := 0
        rightPressed := false, lastRightPress := 0, lastRightRelease := 0
        rightFirstClickTime := 0, rightClickCount := 0
        scrollMode := false, cursorFrozen := false } }

/-! ## The routines -/

/-- Routine `handleLeftSingleClick`. -/
def handleLeftSingleClick (g : Globals) (connected : Bool) : Globals × List Event :=
  if !connected then (g, [])
  else (g, [Event.click MouseButton.MOUSE_LEFT, Event.serial SerialMsg.leftSingleClick])

/-- Routine `handleLeftDoubleClick`. -/
def handleLeftDoubleClick (g : Globals) (connected : Bool) : Globals × List Event :=
  if !connected then (g, [])
  else (g, [Event.click MouseButton.MOUSE_LEFT, Event.delay 100,
            Event.click MouseButton.MOUSE_LEFT, Event.serial SerialMsg.leftDoubleClick])

/-- Routine `toggleScrollMode`. -/
def toggleScrollMode (g : Globals) : Globals × List Event :=
  let g1 := { g with systemState := { g.systemState with scrollMode := !g.systemState.scrollMode } }
  let g2 := { g1 with scrollX := 0 }
  let g3 := { g2 with scrollY := 0 }
  (g3, [Event.serial (if g3.systemState.scrollMode then SerialMsg.scrollModeOn
                      else SerialMsg.scrollModeOff)])

/-- Routine `toggleCursorFreeze`. -/
def toggleCursorFreeze (g : Globals) : Globals × List Event :=
  let g1 := { g with systemState :=
                { g.systemState with cursorFrozen := !g.systemState.cursorFrozen } }
  (g1, [Event.serial (if g1.systemState.cursorFrozen then SerialMsg.cursorFrozen
                      else SerialMsg.cursorUnfrozen)])

/-- Routine `processIMU`, reading the sample `m` from the sensor. -/
def processIMU (g : Globals) (m : Motion6) : Globals × List Event :=
  if g.systemState.cursorFrozen then (g, [])
  else
    let g1 := { g with ax := m.ax, ay := m.ay, az := m.az, gx := m.gx, gy := m.gy, gz := m.gz }
    let g2 := if |g1.gx| < GYRO_DEADZONE then { g1 with gx := 0 } else g1
    let g3 := if |g2.gy| < GYRO_DEADZONE then { g2 with gy := 0 } else g2
    let g4 := { g3 with rawX := (g3.gx : ℚ) * GYRO_SENSITIVITY * (X_AXIS_CORRECTION : ℚ) }
    let g5 := { g4 with rawY := (g4.gy : ℚ) * GYRO_SENSITIVITY * (Y_AXIS_CORRECTION : ℚ) }
    if g5.systemState.scrollMode then
      let g6 := { g5 with scrollY := (SCROLL_SMOOTHING * g5.rawY * SCROLL_SENSITIVITY)
                                      + ((1 - SCROLL_SMOOTHING) * g5.scrollY) }
      if |g6.scrollY| > SCROLL_THRESHOLD then
        (g6, [Event.move 0 0 (-g6.scrollY) 0])
      else (g6, [])
    else
      let g6 := { g5 with filteredX := (SMOOTHING * g5.rawX) + ((1 - SMOOTHING) * g5.filteredX) }
      let g7 := { g6 with filteredY := (SMOOTHING * g6.rawY) + ((1 - SMOOTHING) * g6.filteredY) }
      (g7, [Event.move g7.filteredX g7.filteredY 0 0])

/-- Routine `processLeftButton`; `ms` is the value of `millis()`, `low` says whether the
pin reads `LOW`. -/
def processLeftButton (g : Globals) (ms : Nat) (low : Bool) : Globals × List Event :=
  let currentLeftState := low
  if currentLeftState && !g.systemState.leftPressed then
    if elapsed ms g.systemState.lastLeftPress > DEBOUNCE_DELAY then
      let s1 := { g.systemState with leftPressed := true }
      let s2 := { s1 with lastLeftPress := ms }
      let s3 :=
        if elapsed ms s2.leftFirstClickTime > MULTI_CLICK_TIMEOUT then
          { s2 with leftClickCount := 0, leftFirstClickTime := ms }
        else s2
      let s4 := { s3 with leftClickCount := s3.leftClickCount + 1 }
      ({ g with systemState := s4 }, [Event.serial (SerialMsg.leftButtonPress s4.leftClickCount)])
    else (g, [])
  else if !currentLeftState && g.systemState.leftPressed then
    let s1 := { g.systemState with leftPressed := false }
    let s2 := { s1 with lastLeftRelease := ms }
    ({ g with systemState := s2 }, [])
  else (g, [])

/-- Routine `processRightButton`. -/
def processRightButton (g : Globals) (ms : Nat) (low : Bool) : Globals × List Event :=
  let currentRightState := low
  if currentRightState && !g.systemState.rightPressed then
    if elapsed ms g.systemState.lastRightPress > DEBOUNCE_DELAY then
      let s1 := { g.systemState with rightPressed := true }
      let s2 := { s1 with lastRightPress := ms }
      let s3 :=
        if elapsed ms s2.rightFirstClickTime > MULTI_CLICK_TIMEOUT then
          { s2 with rightClickCount := 0, rightFirstClickTime := ms }
        else s2
      let s4 := { s3 with rightClickCount := s3.rightClickCount + 1 }
      ({ g with systemState := s4 }, [Event.serial (SerialMsg.rightButtonPress s4.rightClickCount)])
    else (g, [])
  else if !currentRightState && g.systemState.rightPressed then
    let s1 := { g.systemState with rightPressed := false }
    let s2 := { s1 with lastRightRelease := ms }
    ({ g with systemState := s2 }, [])
  else (g, [])

/-- The guard of `handleLeftClicks`. -/
def leftResolves (g : Globals) (ms : Nat) : Bool :=
  !g.systemState.leftPressed
    && decide (elapsed ms g.systemState.leftFirstClickTime > MULTI_CLICK_TIMEOUT)
    && decide (g.systemState.leftClickCount > 0)

/-- The guard of `handleRightClicks`. -/
def rightResolves (g : Globals) (ms : Nat) : Bool :=
  !g.systemState.rightPressed
    && decide (elapsed ms g.systemState.rightFirstClickTime > MULTI_CLICK_TIMEOUT)
    && decide (g.systemState.rightClickCount > 0)

/-- Routine `handleLeftClicks`; `connected` is what `bleMouse.isConnected()` answers
inside the click handlers. -/
def handleLeftClicks (g : Globals) (ms : Nat) (connected : Bool) : Globals × List Event :=
  if leftResolves g ms then
    let r :=
      if g.systemState.leftClickCount = 1 then handleLeftSingleClick g connected
      else if g.systemState.leftClickCount = 2 then handleLeftDoubleClick g connected
      else if g.systemState.leftClickCount = 3 then toggleScrollMode g
      else (g, [])
    let s1 := { r.1.systemState with leftClickCount := 0 }
    let s2 := { s1 with leftFirstClickTime := 0 }
    ({ r.1 with systemState := s2 }, r.2)
  else (g, [])

/-- Routine `handleRightClicks`. -/
def handleRightClicks (g : Globals) (ms : Nat) : Globals × List Event :=
  if rightResolves g ms then
    let r :=
      if g.systemState.rightClickCount = 1 then
        (g, [Event.click MouseButton.MOUSE_RIGHT, Event.serial SerialMsg.rightSingleClick])
      else if g.systemState.rightClickCount = 2 then toggleCursorFreeze g
      else (g, [])
    let s1 := { r.1.systemState with rightClickCount := 0 }
    let s2 := { s1 with rightFirstClickTime := 0 }
    ({ r.1 with systemState := s2 }, r.2)
  else (g, [])

/-- Total time spent in `delay` by a list of events. -/
def delayed : List Event → Nat
  | [] => 0
  | Event.delay ms :: es => ms + delayed es
  | _ :: es => delayed es

/-- One pass of `loop`. -/
def loop (g : Globals) (i : Input) : Globals × List Event :=
  if !i.connected then (g, [Event.delay 100])
  else
    let r1 := processIMU g i.sample
    let r2 := processLeftButton r1.1 (millis i.now) i.leftLow
    let r3 := processRightButton r2.1 (millis i.now) i.rightLow
    let r4 := handleLeftClicks r3.1 (millis i.now) i.connectedAtClick
    let r5 := handleRightClicks r4.1 (millis (i.now + delayed r4.2))
    (r5.1, r1.2 ++ r2.2 ++ r3.2 ++ r4.2 ++ r5.2 ++ [Event.delay 8])

/-- Consecutive passes of `loop`, one per input, with the concatenated events. -/
def run (g : Globals) : List Input → Globals × List Event
  | [] => (g, [])
  | i :: is =>
    let r := loop g i
    let rs := run r.1 is
    (rs.1, r.2 ++ rs.2)

/-- The value an axis reading has after the two deadzone lines of `processIMU`
(`if (abs(gx) < GYRO_DEADZONE) gx = 0;`). -/
def deadzone (v : Int) : Int := if |v| < GYRO_DEADZONE then 0 else v

/-- The state after `n` consecutive calls of `processIMU` that all read the
same sample `m`. -/
def holdIMU (g : Globals) (m : Motion6) : Nat → Globals
  | 0 => g
  | n + 1 => (processIMU (holdIMU g m n) m).1

/-- A state with a burst of `c` left presses pending since time 1000, all else
as at start-up. -/
def leftPending (c : Int) : Globals :=
  { initialState with
    systemState := { initialState.systemState with
      lastLeftPress := 1000, leftFirstClickTime := 1000, leftClickCount := c } }

/-- A state with a burst of `c` right presses pending since time 1000, all else
as at start-up. -/
def rightPending (c : Int) : Globals :=
  { initialState with
    systemState := { initialState.systemState with
      lastRightPress := 1000, rightFirstClickTime := 1000, rightClickCount := c } }

/-- A sample whose gyro X and Y readings are both `v`, all else 0. -/
def gyroSample (v : Int) : Motion6 :=
  { ax := 0, ay := 0, az := 0, gx := v, gy := v, gz := 0 }

/-- The sequence `f` approaches `T` geometrically with ratio `r`: the distance
to `T` is `r ^ n` times the initial one, it never grows, it becomes smaller than
any positive bound, and `f` stays on the side of `T` where it started. -/
def ApproachesGeometrically (f : Nat → ℚ) (T r : ℚ) : Prop :=
  (∀ n, |f n - T| = r ^ n * |f 0 - T|)
  ∧ (∀ n, |f (n + 1) - T| ≤ |f n - T|)
  ∧ (∀ ε : ℚ, 0 < ε → ∃ N, ∀ n, N ≤ n → |f n - T| < ε)
  ∧ (∀ n, (T ≤ f 0 → T ≤ f n) ∧ (f 0 ≤ T → f n ≤ T))

/-! ## The per-button state machine read off the routines

The two `process…Button` routines and the two `handle…Clicks` routines are the
same code up to the names of the fields.  `ButtonView` is the part of
`systemState` one button's routines read, and `debounceStep` / `resolveStep`
are what they do to it; the lemmas `leftView_processLeftButton` etc. below prove
that the routines act on the views in exactly this way. -/

/-- The fields of one button that its routines read: the pressed flag, the time
of the last accepted press, the window start and the click count. -/
structure ButtonView where
  pressed : Bool
  lastPress : Nat
  firstClickTime : Nat
  clickCount : Int
  deriving DecidableEq, Repr

/-- The left button's fields. -/
def leftView (g : Globals) : ButtonView :=
  { pressed := g.systemState.leftPressed, lastPress := g.systemState.lastLeftPress
    firstClickTime := g.systemState.leftFirstClickTime
    clickCount := g.systemState.leftClickCount }

/-- The right button's fields. -/
def rightView (g : Globals) : ButtonView :=
  { pressed := g.systemState.rightPressed, lastPress := g.systemState.lastRightPress
    firstClickTime := g.systemState.rightFirstClickTime
    clickCount := g.systemState.rightClickCount }

/-- The fields of button `b`. -/
def buttonView (b : MouseButton) (g : Globals) : ButtonView :=
  match b with
  | MouseButton.MOUSE_LEFT => leftView g
  | MouseButton.MOUSE_RIGHT => rightView g

/-- The two nested guards of the press branch: the pin reads pressed, the
button is not already pressed, and more than `DEBOUNCE_DELAY` has elapsed since
the last accepted press. -/
def accepts (v : ButtonView) (ms : Nat) (low : Bool) : Bool :=
  low && !v.pressed && decide (elapsed ms v.lastPress > DEBOUNCE_DELAY)

/-- The guard of the `handle…Clicks` routines. -/
def resolves (v : ButtonView) (ms : Nat) : Bool :=
  !v.pressed && decide (elapsed ms v.firstClickTime > MULTI_CLICK_TIMEOUT)
    && decide (v.clickCount > 0)

/-- What a `process…Button` routine does to its button's fields. -/
def debounceStep (v : ButtonView) (ms : Nat) (low : Bool) : ButtonView :=
  if accepts v ms low then
    if elapsed ms v.firstClickTime > MULTI_CLICK_TIMEOUT then
      { pressed := true, lastPress := ms, firstClickTime := ms, clickCount := 0 + 1 }
    else
      { pressed := true, lastPress := ms, firstClickTime := v.firstClickTime
        clickCount := v.clickCount + 1 }
  else if !low && v.pressed then { v with pressed := false }
  else v

/-- What a `handle…Clicks` routine does to its button's fields. -/
def resolveStep (v : ButtonView) (ms : Nat) : ButtonView :=
  if resolves v ms then { v with clickCount := 0, firstClickTime := 0 } else v

/-- Number of primary clicks the `switch` of `handleLeftClicks` sends for a
count `c` when the peer is connected. -/
def dispatchClicks (c : Int) : Nat :=
  if c = 1 then 1 else if c = 2 then 2 else 0

/-- Number of scroll-mode toggles the `switch` of `handleLeftClicks` performs
for a count `c`. -/
def dispatchToggles (c : Int) : Nat :=
  if c = 3 then 1 else 0

/-! ## Observations on event lists -/

/-- The buttons of the `bleMouse.click` calls in a list of events, in order. -/
def clickList : List Event → List MouseButton
  | [] => []
  | Event.click b :: es => b :: clickList es
  | _ :: es => clickList es

/-- The user-level actions the dispatcher can produce. -/
inductive Gesture
  | click (b : MouseButton)
  | toggleScroll
  | toggleFreeze
  deriving DecidableEq, Repr

/-- The clicks and mode toggles in a list of events, in order; a toggle is
recognised by the serial line its routine writes, whichever way it went. -/
def gestures : List Event → List Gesture
  | [] => []
  | Event.click b :: es => Gesture.click b :: gestures es
  | Event.serial SerialMsg.scrollModeOn :: es => Gesture.toggleScroll :: gestures es
  | Event.serial SerialMsg.scrollModeOff :: es => Gesture.toggleScroll :: gestures es
  | Event.serial SerialMsg.cursorFrozen :: es => Gesture.toggleFreeze :: gestures es
  | Event.serial SerialMsg.cursorUnfrozen :: es => Gesture.toggleFreeze :: gestures es
  | _ :: es => gestures es

/-- The button and click-aggregator fields of the state, left then right. -/
def buttonFields (g : Globals) :
    (Bool × Nat × Nat × Nat × Int) × (Bool × Nat × Nat × Nat × Int) :=
  ((g.systemState.leftPressed, g.systemState.lastLeftPress, g.systemState.lastLeftRelease,
    g.systemState.leftFirstClickTime, g.systemState.leftClickCount),
   (g.systemState.rightPressed, g.systemState.lastRightPress, g.systemState.lastRightRelease,
    g.systemState.rightFirstClickTime, g.systemState.rightClickCount))

/-- The state `g` with `cursorFrozen` set to `b`. -/
def withFrozen (g : Globals) (b : Bool) : Globals :=
  { g with systemState := { g.systemState with cursorFrozen := b } }

/-- The system mode and the four filter accumulators:
`(scrollMode, cursorFrozen, filteredX, filteredY, scrollX, scrollY)`. -/
def modeFields (g : Globals) : Bool × Bool × ℚ × ℚ × ℚ × ℚ :=
  (g.systemState.scrollMode, g.systemState.cursorFrozen,
   g.filteredX, g.filteredY, g.scrollX, g.scrollY)

/-- A connected pass at true time `t` with the given pin levels (`true` is
`LOW`, i.e. pressed) and a sample at rest. -/
def tickAt (t : Nat) (leftLow rightLow : Bool) : Input :=
  { now := t, connected := true, connectedAtClick := true, sample := gyroSample 0
    leftLow := leftLow, rightLow := rightLow }

/-- Number of press edges of button `b` accepted in a list of events: the
press branch of `processLeftButton` / `processRightButton` is the only place
that writes the "button press" serial line, once per accepted edge. -/
def presses (b : MouseButton) : List Event → Nat
  | [] => 0
  | Event.serial (SerialMsg.leftButtonPress _) :: es =>
    (if b = MouseButton.MOUSE_LEFT then 1 else 0) + presses b es
  | Event.serial (SerialMsg.rightButtonPress _) :: es =>
    (if b = MouseButton.MOUSE_RIGHT then 1 else 0) + presses b es
  | _ :: es => presses b es

/-- The raw level of the pin of button `b` in an input (`true` is pressed). -/
def rawLow (b : MouseButton) (i : Input) : Bool :=
  match b with
  | MouseButton.MOUSE_LEFT => i.leftLow
  | MouseButton.MOUSE_RIGHT => i.rightLow

/-- The state in which pass number `k` (from 0) of the run `ins` starts. -/
def stateAt (g : Globals) (ins : List Input) (k : Nat) : Globals :=
  (run g (ins.take k)).1

/-- Number of press edges of button `b` accepted by pass number `k` of the run
`ins` started in `g` (0 when the run has no such pass). -/
def pressesAt (b : MouseButton) (g : Globals) (ins : List Input) (k : Nat) : Nat :=
  match ins[k]? with
  | some i => presses b (loop (stateAt g ins k) i).2
  | none => 0

/-- Pass number `k + 1` of `ins` sees a raw press edge of button `b`: the pin
read released at pass `k` and pressed at pass `k + 1`. -/
def rawEdgeAfter (b : MouseButton) (ins : List Input) (k : Nat) : Bool :=
  match ins[k]?, ins[k + 1]? with
  | some i, some j => !rawLow b i && rawLow b j
  | _, _ => false

/-- The true time of pass number `k` of `ins` (0 when there is none). -/
def timeAt (ins : List Input) (k : Nat) : Nat :=
  match ins[k]? with
  | some i => i.now
  | none => 0

/-- The times of a run never decrease. -/
def TimeOrdered (ins : List Input) : Prop :=
  List.Pairwise (fun a b : Input => a.now ≤ b.now) ins

/-- A bouncing left contact sampled every 8 ms: three raw press edges, at times
1008, 1024 and 1040, each released again at the next pass. -/
def bounceRun : List Input :=
  [tickAt 1000 false false, tickAt 1008 true false, tickAt 1016 false false,
   tickAt 1024 true false, tickAt 1032 false false, tickAt 1040 true false,
   tickAt 1048 false false]

/-- A left press that bounces once and is then held: raw press edges at times
1008 and 1024 only, the pin reading pressed from 1024 on. -/
def heldRun : List Input :=
  [tickAt 1000 false false, tickAt 1008 true false, tickAt 1016 false false,
   tickAt 1024 true false, tickAt 1032 true false, tickAt 1040 true false,
   tickAt 1048 true false, tickAt 1056 true false, tickAt 1064 true false,
   tickAt 1072 true false]

/-- The true times of the passes of a run, started in `g`, at which a left
press edge is accepted, in order. -/
def leftPressTimes (g : Globals) : List Input → List Nat
  | [] => []
  | i :: is =>
    if presses MouseButton.MOUSE_LEFT (loop g i).2 > 0 then
      i.now :: leftPressTimes (loop g i).1 is
    else leftPressTimes (loop g i).1 is

/-- Three left presses at times 1000, 1200 and 1390, all within 400 ms of the
first, each released before the next (the closing silent pass is added by the
statements that use the run). -/
def tripleRun : List Input :=
  [tickAt 1000 true false, tickAt 1100 false false, tickAt 1200 true false,
   tickAt 1250 false false, tickAt 1390 true false, tickAt 1398 false false]

/-- Three left presses at times 1000, 1300 and 1600, each less than 400 ms after
the previous one, each released before the next, followed by released passes
until time 2100. -/
def slowTripleRun : List Input :=
  [tickAt 1000 true false, tickAt 1100 false false, tickAt 1300 true false,
   tickAt 1350 false false, tickAt 1450 false false, tickAt 1600 true false,
   tickAt 1700 false false, tickAt 2100 false false]

/-- The `bleMouse.move` calls in a list of events, in order. -/
def moveList : List Event → List (ℚ × ℚ × ℚ × ℚ)
  | [] => []
  | Event.move x y w h :: es => (x, y, w, h) :: moveList es
  | _ :: es => moveList es

/-- Number of `bleMouse.click(b)` calls in a list of events. -/
def clicks (b : MouseButton) : List Event → Nat
  | [] => 0
  | Event.click b' :: es => (if b' = b then 1 else 0) + clicks b es
  | _ :: es => clicks b es

/-- Number of scroll-mode toggles announced in a list of events
(`toggleScrollMode` writes exactly one of the two scroll-mode lines). -/
def scrollToggles : List Event → Nat
  | [] => 0
  | Event.serial SerialMsg.scrollModeOn :: es => 1 + scrollToggles es
  | Event.serial SerialMsg.scrollModeOff :: es => 1 + scrollToggles es
  | _ :: es => scrollToggles es

/-- A pass at true time `t` without a connected peer, with the given pin levels
and a sample at rest. -/
def offlineTick (t : Nat) (leftLow rightLow : Bool) : Input :=
  { now := t, connected := false, connectedAtClick := false, sample := gyroSample 0
    leftLow := leftLow, rightLow := rightLow }

/-- The `delay` calls in a list of events, in order. -/
def delayList : List Event → List Nat
  | [] => []
  | Event.delay ms :: es => ms :: delayList es
  | _ :: es => delayList es

/-- A state in scroll mode with `scrollY = y`, all else as at start-up. -/
def scrollingState (y : ℚ) : Globals :=
  { initialState with
    scrollY := y
    systemState := { initialState.systemState with scrollMode := true } }

/-- A state in cursor mode whose cursor accumulators are `x` and `y`, all else
as at start-up. -/
def movingState (x y : ℚ) : Globals :=
  { initialState with filteredX := x, filteredY := y }

/-- The state in which a connected pass reaches its two `handle…Clicks` calls:
after `processIMU` and both debouncer steps. -/
def afterDebounce (g : Globals) (i : Input) : Globals :=
  (processRightButton (processLeftButton (processIMU g i.sample).1 (millis i.now)
    i.leftLow).1 (millis i.now) i.rightLow).1

/-- The clock value the handler of button `b` reads in a connected pass: that of
the pass for the left button, and that plus whatever `handleLeftClicks` spent in
`delay` for the right button. -/
def handlerClock (b : MouseButton) (g : Globals) (i : Input) : Nat :=
  match b with
  | MouseButton.MOUSE_LEFT => millis i.now
  | MouseButton.MOUSE_RIGHT =>
    millis (i.now + delayed (handleLeftClicks (afterDebounce g i) (millis i.now)
      i.connectedAtClick).2)

/-- The count the `switch` of `handleLeftClicks` runs on, when its guard lets it
run. -/
def leftDispatched (g : Globals) (ms : Nat) : Option Int :=
  if leftResolves g ms then some g.systemState.leftClickCount else none

/-- The count the `switch` of `handleRightClicks` runs on, when its guard lets
it run. -/
def rightDispatched (g : Globals) (ms : Nat) : Option Int :=
  if rightResolves g ms then some g.systemState.rightClickCount else none

/-- The count a connected pass hands to the dispatcher for button `b`, if it
does. -/
def handedOver (b : MouseButton) (g : Globals) (i : Input) : Option Int :=
  match b with
  | MouseButton.MOUSE_LEFT => leftDispatched (afterDebounce g i) (millis i.now)
  | MouseButton.MOUSE_RIGHT =>
    rightDispatched (handleLeftClicks (afterDebounce g i) (millis i.now) i.connectedAtClick).1
      (handlerClock MouseButton.MOUSE_RIGHT g i)

/-- A single click at clock value 1000, resolved at 1500, and then, after the
32-bit counter has wrapped, a press at clock value 100 (true time
`2 ^ 32 + 100`), released at 110, with released passes at 400 and 410. -/
def wrapRun : List Input :=
  [tickAt 1000 true false, tickAt 1100 false false, tickAt 1500 false false,
   tickAt (ULONG_MOD + 100) true false, tickAt (ULONG_MOD + 110) false false,
   tickAt (ULONG_MOD + 400) false false, tickAt (ULONG_MOD + 410) false false]

/-- A left press at 1000, released at 1008 and still released at 1400, pressed
again at 1408, released at 1416, and silence until 1900.  (Released passes
between 1008 and 1400 would change nothing.) -/
def lateSecondPressRun : List Input :=
  [tickAt 1000 true false, tickAt 1008 false false, tickAt 1400 false false,
   tickAt 1408 true false, tickAt 1416 false false, tickAt 1900 false false]

/-- The clock values of the passes of a run. -/
def clockValues (ins : List Input) : List Nat :=
  ins.map (fun i => millis i.now)

/-- The invariant behind the bound on a click count, for a view and a time `T`
no later than the next pass: the window start and the last accepted press are
not later than `T`, the count is not negative, and while it is positive the
last accepted press lies in the window, at least 51 ms per counted press after
the first. -/
def CountInv (v : ButtonView) (T : Nat) : Prop :=
  v.firstClickTime ≤ T ∧ v.lastPress ≤ T ∧ 0 ≤ v.clickCount
  ∧ (1 ≤ v.clickCount →
      v.firstClickTime ≤ v.lastPress
      ∧ v.lastPress ≤ v.firstClickTime + MULTI_CLICK_TIMEOUT
      ∧ 51 * v.clickCount ≤ (v.lastPress : Int) - (v.firstClickTime : Int) + 51)

/-- Both buttons pressed together eight times, 51 ms apart, from 1000 to 1357,
released in between. -/
def burstRun : List Input :=
  [tickAt 1000 true true, tickAt 1025 false false, tickAt 1051 true true,
   tickAt 1076 false false, tickAt 1102 true true, tickAt 1127 false false,
   tickAt 1153 true true, tickAt 1178 false false, tickAt 1204 true true,
   tickAt 1229 false false, tickAt 1255 true true, tickAt 1280 false false,
   tickAt 1306 true true, tickAt 1331 false false, tickAt 1357 true true]

/-- The largest magnitude of a scaled gyro input: `GYRO_SENSITIVITY * 32768`
(72.0896). -/
def FILTER_BOUND : ℚ := GYRO_SENSITIVITY * 32768

/-- The largest magnitude of a scaled scroll input:
`SCROLL_SENSITIVITY * GYRO_SENSITIVITY * 32768`. -/
def SCROLL_BOUND : ℚ := SCROLL_SENSITIVITY * FILTER_BOUND

/-- The value `v` is in the range of an `int16_t`. -/
def IsInt16 (v : Int) : Prop := -32768 ≤ v ∧ v ≤ 32767

/-- The three accumulators `processIMU` writes are within their bounds. -/
def FiltersBounded (g : Globals) : Prop :=
  |g.filteredX| ≤ FILTER_BOUND ∧ |g.filteredY| ≤ FILTER_BOUND ∧ |g.scrollY| ≤ SCROLL_BOUND

/-- Every argument of every `bleMouse.move` call in a list of events has
magnitude below 128, so that it is in the range of the signed 8-bit parameters
of the call. -/
def MovesFit (es : List Event) : Prop :=
  ∀ e ∈ moveList es, |e.1| < 128 ∧ |e.2.1| < 128 ∧ |e.2.2.1| < 128 ∧ |e.2.2.2| < 128

/-- A connected pass at true time `t` with the given pin levels and gyro
readings `gx`, `gy`. -/
def motionTick (t : Nat) (leftLow rightLow : Bool) (gx gy : Int) : Input :=
  { now := t, connected := true, connectedAtClick := true
    sample := { ax := 0, ay := 0, az := 0, gx := gx, gy := gy, gz := 0 }
    leftLow := leftLow, rightLow := rightLow }

/-! ## Gesture dispatch -/

/-- Claim C2: When the guard of `handleLeftClicks` holds and the peer is connected,
a count of 1 emits exactly one primary click and changes no mode, a count of 2
emits exactly two primary clicks and changes no mode, a count of 3 emits no
click, flips `scrollMode` and zeroes `scrollX` and `scrollY`, and any other
count emits no click and leaves both modes and the four filter accumulators as
they were. -/
theorem handleLeftClicks_dispatch (g : Globals) (ms : Nat)
    (h : leftResolves g ms = true) :
    (g.systemState.leftClickCount = 1 →
      clickList (handleLeftClicks g ms true).2 = [MouseButton.MOUSE_LEFT]
      ∧ (handleLeftClicks g ms true).1.systemState.scrollMode = g.systemState.scrollMode
      ∧ (handleLeftClicks g ms true).1.systemState.cursorFrozen = g.systemState.cursorFrozen)
    ∧ (g.systemState.leftClickCount = 2 →
      clickList (handleLeftClicks g ms true).2
        = [MouseButton.MOUSE_LEFT, MouseButton.MOUSE_LEFT]
      ∧ (handleLeftClicks g ms true).1.systemState.scrollMode = g.systemState.scrollMode
      ∧ (handleLeftClicks g ms true).1.systemState.cursorFrozen = g.systemState.cursorFrozen)
    ∧ (g.systemState.leftClickCount = 3 →
      clickList (handleLeftClicks g ms true).2 = []
      ∧ (handleLeftClicks g ms true).1.systemState.scrollMode = !g.systemState.scrollMode
      ∧ (handleLeftClicks g ms true).1.scrollX = 0
      ∧ (handleLeftClicks g ms true).1.scrollY = 0)
    ∧ (3 < g.systemState.leftClickCount →
      clickList (handleLeftClicks g ms true).2 = []
      ∧ (handleLeftClicks g ms true).1.systemState.scrollMode = g.systemState.scrollMode
      ∧ (handleLeftClicks g ms true).1.systemState.cursorFrozen = g.systemState.cursorFrozen
      ∧ (handleLeftClicks g ms true).1.filteredX = g.filteredX
      ∧ (handleLeftClicks g ms true).1.filteredY = g.filteredY
      ∧ (handleLeftClicks g ms true).1.scrollX = g.scrollX
      ∧ (handleLeftClicks g ms true).1.scrollY = g.scrollY) := by
  refine ⟨fun hc => ?_, fun hc => ?_, fun hc => ?_, fun hc => ?_⟩
  · simp [handleLeftClicks, h, hc, handleLeftSingleClick, clickList]
  · simp [handleLeftClicks, h, hc, handleLeftDoubleClick, clickList]
  · simp [handleLeftClicks, h, hc, toggleScrollMode, clickList]
  · have h1 : g.systemState.leftClickCount ≠ 1 := by omega
    have h2 : g.systemState.leftClickCount ≠ 2 := by omega
    have h3 : g.systemState.leftClickCount ≠ 3 := by omega
    simp [handleLeftClicks, h, h1, h2, h3, clickList]

/-- Witness for C2: a pending burst of two left presses, resolved at time 1500,
emits two primary clicks and keeps scroll mode off. -/
theorem handleLeftClicks_dispatch_witness :
    leftResolves (leftPending 2) 1500 = true
    ∧ clickList (handleLeftClicks (leftPending 2) 1500 true).2
        = [MouseButton.MOUSE_LEFT, MouseButton.MOUSE_LEFT]
    ∧ (handleLeftClicks (leftPending 2) 1500 true).1.systemState.scrollMode = false :=
  ⟨by decide,
   ((handleLeftClicks_dispatch (leftPending 2) 1500 (by decide)).2.1 rfl).1,
   ((handleLeftClicks_dispatch (leftPending 2) 1500 (by decide)).2.1 rfl).2.1⟩

/-- Claim C3: When the guard of `handleRightClicks` holds, a count of 1 emits
exactly one secondary click and changes no mode, a count of 2 emits no click and
flips `cursorFrozen` while `scrollMode` stays, and any other count emits no
click and leaves both modes and the four filter accumulators as they were. -/
theorem handleRightClicks_dispatch (g : Globals) (ms : Nat)
    (h : rightResolves g ms = true) :
    (g.systemState.rightClickCount = 1 →
      clickList (handleRightClicks g ms).2 = [MouseButton.MOUSE_RIGHT]
      ∧ (handleRightClicks g ms).1.systemState.scrollMode = g.systemState.scrollMode
      ∧ (handleRightClicks g ms).1.systemState.cursorFrozen = g.systemState.cursorFrozen)
    ∧ (g.systemState.rightClickCount = 2 →
      clickList (handleRightClicks g ms).2 = []
      ∧ (handleRightClicks g ms).1.systemState.cursorFrozen = !g.systemState.cursorFrozen
      ∧ (handleRightClicks g ms).1.systemState.scrollMode = g.systemState.scrollMode)
    ∧ (2 < g.systemState.rightClickCount →
      clickList (handleRightClicks g ms).2 = []
      ∧ (handleRightClicks g ms).1.systemState.scrollMode = g.systemState.scrollMode
      ∧ (handleRightClicks g ms).1.systemState.cursorFrozen = g.systemState.cursorFrozen
      ∧ (handleRightClicks g ms).1.filteredX = g.filteredX
      ∧ (handleRightClicks g ms).1.filteredY = g.filteredY
      ∧ (handleRightClicks g ms).1.scrollX = g.scrollX
      ∧ (handleRightClicks g ms).1.scrollY = g.scrollY) := by
  refine ⟨fun hc => ?_, fun hc => ?_, fun hc => ?_⟩
  · simp [handleRightClicks, h, hc, clickList]
  · simp [handleRightClicks, h, hc, toggleCursorFreeze, clickList]
  · have h1 : g.systemState.rightClickCount ≠ 1 := by omega
    have h2 : g.systemState.rightClickCount ≠ 2 := by omega
    simp [handleRightClicks, h, h1, h2, clickList]

/-- Witness for C3: a pending burst of two right presses, resolved at time
1500, emits no click and freezes the cursor. -/
theorem handleRightClicks_dispatch_witness :
    rightResolves (rightPending 2) 1500 = true
    ∧ clickList (handleRightClicks (rightPending 2) 1500).2 = []
    ∧ (handleRightClicks (rightPending 2) 1500).1.systemState.cursorFrozen = true :=
  ⟨by decide,
   ((handleRightClicks_dispatch (rightPending 2) 1500 (by decide)).2.1 rfl).1,
   ((handleRightClicks_dispatch (rightPending 2) 1500 (by decide)).2.1 rfl).2.1⟩

/-- Claim C10: For every state, `toggleScrollMode` negates `scrollMode`, sets
`scrollX` and `scrollY` to 0 whatever they were and whichever way the toggle
goes, and changes neither `cursorFrozen` nor any button or click field. -/
theorem toggleScrollMode_effect (g : Globals) :
    (toggleScrollMode g).1.systemState.scrollMode = !g.systemState.scrollMode
    ∧ (toggleScrollMode g).1.scrollX = 0
    ∧ (toggleScrollMode g).1.scrollY = 0
    ∧ (toggleScrollMode g).1.systemState.cursorFrozen = g.systemState.cursorFrozen
    ∧ (toggleScrollMode g).1.systemState.leftPressed = g.systemState.leftPressed
    ∧ (toggleScrollMode g).1.systemState.lastLeftPress = g.systemState.lastLeftPress
    ∧ (toggleScrollMode g).1.systemState.lastLeftRelease = g.systemState.lastLeftRelease
    ∧ (toggleScrollMode g).1.systemState.leftFirstClickTime = g.systemState.leftFirstClickTime
    ∧ (toggleScrollMode g).1.systemState.leftClickCount = g.systemState.leftClickCount
    ∧ (toggleScrollMode g).1.systemState.rightPressed = g.systemState.rightPressed
    ∧ (toggleScrollMode g).1.systemState.lastRightPress = g.systemState.lastRightPress
    ∧ (toggleScrollMode g).1.systemState.lastRightRelease = g.systemState.lastRightRelease
    ∧ (toggleScrollMode g).1.systemState.rightFirstClickTime
        = g.systemState.rightFirstClickTime
    ∧ (toggleScrollMode g).1.systemState.rightClickCount = g.systemState.rightClickCount := by
  simp [toggleScrollMode]

/-! ## Motion filter: modes -/

/-- Closed form of `processIMU` on a frozen cursor. -/
theorem processIMU_frozen (g : Globals) (m : Motion6)
    (hf : g.systemState.cursorFrozen = true) : processIMU g m = (g, []) := by
  simp [processIMU, hf]

/-- Closed form of `processIMU` in scroll mode. -/
theorem processIMU_scroll (g : Globals) (m : Motion6)
    (hf : g.systemState.cursorFrozen = false) (hs : g.systemState.scrollMode = true) :
    processIMU g m =
      ({ g with
          ax := m.ax, ay := m.ay, az := m.az
          gx := deadzone m.gx, gy := deadzone m.gy, gz := m.gz
          rawX := (deadzone m.gx : ℚ) * GYRO_SENSITIVITY * (X_AXIS_CORRECTION : ℚ)
          rawY := (deadzone m.gy : ℚ) * GYRO_SENSITIVITY * (Y_AXIS_CORRECTION : ℚ)
          scrollY := SCROLL_SMOOTHING
                      * ((deadzone m.gy : ℚ) * GYRO_SENSITIVITY * (Y_AXIS_CORRECTION : ℚ))
                      * SCROLL_SENSITIVITY + (1 - SCROLL_SMOOTHING) * g.scrollY },
       if |SCROLL_SMOOTHING
              * ((deadzone m.gy : ℚ) * GYRO_SENSITIVITY * (Y_AXIS_CORRECTION : ℚ))
              * SCROLL_SENSITIVITY + (1 - SCROLL_SMOOTHING) * g.scrollY| > SCROLL_THRESHOLD
       then [Event.move 0 0
              (-(SCROLL_SMOOTHING
                  * ((deadzone m.gy : ℚ) * GYRO_SENSITIVITY * (Y_AXIS_CORRECTION : ℚ))
                  * SCROLL_SENSITIVITY + (1 - SCROLL_SMOOTHING) * g.scrollY)) 0]
       else []) := by
  unfold processIMU deadzone
  by_cases h1 : |m.gx| < GYRO_DEADZONE <;> by_cases h2 : |m.gy| < GYRO_DEADZONE <;>
    simp [hf, hs, h1, h2] <;> split_ifs <;> rfl

/-- Closed form of `processIMU` in cursor mode. -/
theorem processIMU_cursor (g : Globals) (m : Motion6)
    (hf : g.systemState.cursorFrozen = false) (hs : g.systemState.scrollMode = false) :
    processIMU g m =
      ({ g with
          ax := m.ax, ay := m.ay, az := m.az
          gx := deadzone m.gx, gy := deadzone m.gy, gz := m.gz
          rawX := (deadzone m.gx : ℚ) * GYRO_SENSITIVITY * (X_AXIS_CORRECTION : ℚ)
          rawY := (deadzone m.gy : ℚ) * GYRO_SENSITIVITY * (Y_AXIS_CORRECTION : ℚ)
          filteredX := SMOOTHING
                        * ((deadzone m.gx : ℚ) * GYRO_SENSITIVITY * (X_AXIS_CORRECTION : ℚ))
                        + (1 - SMOOTHING) * g.filteredX
          filteredY := SMOOTHING
                        * ((deadzone m.gy : ℚ) * GYRO_SENSITIVITY * (Y_AXIS_CORRECTION : ℚ))
                        + (1 - SMOOTHING) * g.filteredY },
       [Event.move
          (SMOOTHING * ((deadzone m.gx : ℚ) * GYRO_SENSITIVITY * (X_AXIS_CORRECTION : ℚ))
            + (1 - SMOOTHING) * g.filteredX)
          (SMOOTHING * ((deadzone m.gy : ℚ) * GYRO_SENSITIVITY * (Y_AXIS_CORRECTION : ℚ))
            + (1 - SMOOTHING) * g.filteredY) 0 0]) := by
  unfold processIMU deadzone
  by_cases h1 : |m.gx| < GYRO_DEADZONE <;> by_cases h2 : |m.gy| < GYRO_DEADZONE <;>
    simp [hf, hs, h1, h2]

/-- The moves of a concatenation. -/
theorem moveList_append (xs ys : List Event) :
    moveList (xs ++ ys) = moveList xs ++ moveList ys := by
  induction xs with
  | nil => rfl
  | cons e es ih => cases e <;> simp [moveList, ih]

/-- The button and click routines send no move. -/
theorem moveList_buttons (g : Globals) (ms : Nat) (low c : Bool) :
    moveList (processLeftButton g ms low).2 = []
    ∧ moveList (processRightButton g ms low).2 = []
    ∧ moveList (handleLeftClicks g ms c).2 = []
    ∧ moveList (handleRightClicks g ms).2 = [] := by
  refine ⟨?_, ?_, ?_, ?_⟩
  · unfold processLeftButton
    dsimp only
    split_ifs <;> rfl
  · unfold processRightButton
    dsimp only
    split_ifs <;> rfl
  · unfold handleLeftClicks handleLeftSingleClick handleLeftDoubleClick toggleScrollMode
    dsimp only
    cases c <;> split_ifs <;> rfl
  · unfold handleRightClicks toggleCursorFreeze
    dsimp only
    split_ifs <;> rfl

/-- The moves sent by a pass of `loop` are those of its `processIMU` call. -/
theorem moveList_loop (g : Globals) (i : Input) :
    moveList (loop g i).2
      = if i.connected then moveList (processIMU g i.sample).2 else [] := by
  cases hc : i.connected
  · simp [loop, hc, moveList]
  · simp only [loop, hc, Bool.not_true, Bool.false_eq_true, if_false, if_true, moveList_append]
    rw [(moveList_buttons _ _ _ true).1, (moveList_buttons _ _ _ true).2.1,
      (moveList_buttons _ _ true i.connectedAtClick).2.2.1, (moveList_buttons _ _ true true).2.2.2]
    simp [moveList]

/-- Claim C7: For every state and sample, `processIMU` in scroll mode sends only
moves with `dx = dy = 0` and leaves `filteredX` and `filteredY` unchanged, and
in cursor mode it sends only moves with wheel amount 0 and leaves `scrollX` and
`scrollY` unchanged; and a pass of `loop` sends no move other than those of its
`processIMU` call. -/
theorem processIMU_mode_exclusive (g : Globals) (m : Motion6) :
    (g.systemState.scrollMode = true →
      (∀ e ∈ moveList (processIMU g m).2, e.1 = 0 ∧ e.2.1 = 0)
      ∧ (processIMU g m).1.filteredX = g.filteredX
      ∧ (processIMU g m).1.filteredY = g.filteredY)
    ∧ (g.systemState.scrollMode = false →
      (∀ e ∈ moveList (processIMU g m).2, e.2.2.1 = 0 ∧ e.2.2.2 = 0)
      ∧ (processIMU g m).1.scrollX = g.scrollX
      ∧ (processIMU g m).1.scrollY = g.scrollY)
    ∧ (∀ i : Input, i.sample = m →
      moveList (loop g i).2 = if i.connected then moveList (processIMU g m).2 else []) := by
  refine ⟨?_, ?_, fun i hi => by rw [← hi]; exact moveList_loop g i⟩
  · intro hs
    cases hf : g.systemState.cursorFrozen
    · rw [processIMU_scroll g m hf hs]
      refine ⟨?_, rfl, rfl⟩
      split_ifs <;> simp [moveList]
    · rw [processIMU_frozen g m hf]
      simp [moveList]
  · intro hs
    cases hf : g.systemState.cursorFrozen
    · rw [processIMU_cursor g m hf hs]
      simp [moveList]
    · rw [processIMU_frozen g m hf]
      simp [moveList]

/-! ## Motion filter: deadzone and smoothing -/

/-- Claim C5: On a non-frozen call of `processIMU`, a gyro reading of magnitude
below `GYRO_DEADZONE` makes the scaled input of its axis exactly 0, so that the
accumulator of that axis becomes `(1 - α)` times its previous value, whatever
the reading (`α` is `SMOOTHING` for `filteredX` and `filteredY` and
`SCROLL_SMOOTHING` for `scrollY`); a reading of magnitude exactly 400 is kept
and gives a non-zero scaled input. -/
theorem processIMU_deadzone (g : Globals) (m : Motion6)
    (hf : g.systemState.cursorFrozen = false) :
    (|m.gx| < GYRO_DEADZONE →
      (processIMU g m).1.rawX = 0
      ∧ (g.systemState.scrollMode = false →
          (processIMU g m).1.filteredX = (1 - SMOOTHING) * g.filteredX))
    ∧ (|m.gy| < GYRO_DEADZONE →
      (processIMU g m).1.rawY = 0
      ∧ (g.systemState.scrollMode = false →
          (processIMU g m).1.filteredY = (1 - SMOOTHING) * g.filteredY)
      ∧ (g.systemState.scrollMode = true →
          (processIMU g m).1.scrollY = (1 - SCROLL_SMOOTHING) * g.scrollY))
    ∧ (|m.gx| = 400 → (processIMU g m).1.gx = m.gx ∧ (processIMU g m).1.rawX ≠ 0)
    ∧ (|m.gy| = 400 → (processIMU g m).1.gy = m.gy ∧ (processIMU g m).1.rawY ≠ 0) := by
  have hz : ∀ v : Int, |v| < GYRO_DEADZONE → deadzone v = 0 := fun v hv => by
    simp [deadzone, hv]
  have hk : ∀ v : Int, |v| = 400 → deadzone v = v ∧ (v : ℚ) ≠ 0 := fun v hv => by
    have h0 : v ≠ 0 := by
      rintro rfl
      simp at hv
    refine ⟨by simp [deadzone, GYRO_DEADZONE, hv], by exact_mod_cast h0⟩
  cases hs : g.systemState.scrollMode
  · rw [processIMU_cursor g m hf hs]
    refine ⟨fun h => ?_, fun h => ?_, fun h => ?_, fun h => ?_⟩
    · simp [hz _ h]
    · simp [hz _ h]
    · simp [(hk _ h).1, (hk _ h).2, GYRO_SENSITIVITY, X_AXIS_CORRECTION]
    · simp [(hk _ h).1, (hk _ h).2, GYRO_SENSITIVITY, Y_AXIS_CORRECTION]
  · rw [processIMU_scroll g m hf hs]
    refine ⟨fun h => ?_, fun h => ?_, fun h => ?_, fun h => ?_⟩
    · simp [hz _ h]
    · simp [hz _ h]
    · simp [(hk _ h).1, (hk _ h).2, GYRO_SENSITIVITY, X_AXIS_CORRECTION]
    · simp [(hk _ h).1, (hk _ h).2, GYRO_SENSITIVITY, Y_AXIS_CORRECTION]

/-- Witness for C5: from start-up, a reading of 399 on both axes gives scaled
inputs 0 and a reading of 400 does not. -/
theorem processIMU_deadzone_witness :
    initialState.systemState.cursorFrozen = false
    ∧ (processIMU initialState (gyroSample 399)).1.rawX = 0
    ∧ (processIMU initialState (gyroSample 400)).1.rawX ≠ 0 :=
  ⟨rfl,
   ((processIMU_deadzone initialState (gyroSample 399) rfl).1 (by decide)).1,
   ((processIMU_deadzone initialState (gyroSample 400) rfl).2.2.1 (by decide)).2⟩

/-- A sequence whose distance to `T` is multiplied by `r` at every step, with
`0 ≤ r < 1`, approaches `T` geometrically. -/
theorem approaches_of_step (f : Nat → ℚ) (T r : ℚ) (hr0 : 0 ≤ r) (hr1 : r < 1)
    (hstep : ∀ n, f (n + 1) - T = r * (f n - T)) : ApproachesGeometrically f T r := by
  have hpow : ∀ n, f n - T = r ^ n * (f 0 - T) := by
    intro n
    induction n with
    | zero => simp
    | succ k ih => rw [hstep, ih, pow_succ]; ring
  have habs : ∀ n, |f n - T| = r ^ n * |f 0 - T| := by
    intro n
    rw [hpow n, abs_mul, abs_of_nonneg (pow_nonneg hr0 n)]
  refine ⟨habs, ?_, ?_, ?_⟩
  · intro n
    rw [hstep, abs_mul, abs_of_nonneg hr0]
    calc r * |f n - T| ≤ 1 * |f n - T| :=
          mul_le_mul_of_nonneg_right hr1.le (abs_nonneg _)
      _ = |f n - T| := one_mul _
  · intro ε hε
    have hd : 0 < |f 0 - T| + 1 := by positivity
    obtain ⟨N, hN⟩ := exists_pow_lt_of_lt_one (div_pos hε hd) hr1
    refine ⟨N, fun n hn => ?_⟩
    rw [habs n]
    have h1 : r ^ n ≤ r ^ N := pow_le_pow_of_le_one hr0 hr1.le hn
    have h2 : r ^ N * (|f 0 - T| + 1) < ε := (lt_div_iff₀ hd).mp hN
    have h3 : r ^ n * |f 0 - T| ≤ r ^ N * (|f 0 - T| + 1) :=
      mul_le_mul h1 (by linarith) (abs_nonneg _) (pow_nonneg hr0 N)
    linarith
  · intro n
    have hp : 0 ≤ r ^ n := pow_nonneg hr0 n
    constructor
    · intro h
      have : 0 ≤ f n - T := by
        rw [hpow n]
        exact mul_nonneg hp (by linarith)
      linarith
    · intro h
      have : f n - T ≤ 0 := by
        rw [hpow n]
        exact mul_nonpos_of_nonneg_of_nonpos hp (by linarith)
      linarith

/-- The routine `processIMU` never writes `systemState`. -/
theorem processIMU_systemState (g : Globals) (m : Motion6) :
    (processIMU g m).1.systemState = g.systemState := by
  cases hf : g.systemState.cursorFrozen
  · cases hs : g.systemState.scrollMode
    · rw [processIMU_cursor g m hf hs]
    · rw [processIMU_scroll g m hf hs]
  · rw [processIMU_frozen g m hf]

/-- Holding a sample does not change `systemState`. -/
theorem holdIMU_systemState (g : Globals) (m : Motion6) (n : Nat) :
    (holdIMU g m n).systemState = g.systemState := by
  induction n with
  | zero => rfl
  | succ k ih => rw [holdIMU, processIMU_systemState, ih]

/-- A reading outside the deadzone is passed on unchanged. -/
theorem deadzone_of_le (v : Int) (h : GYRO_DEADZONE ≤ |v|) : deadzone v = v := by
  simp [deadzone, not_lt.mpr h]

/-- Claim C6: Over exact rationals, while one sample is held on non-frozen calls
of `processIMU`: in cursor mode with `|gx| ≥ 400`, `filteredX` approaches
`-0.0022 * gx` geometrically with ratio 0.85 (distance multiplied by `0.85 ^ n`,
never growing, tending to 0, no overshoot); with `|gy| ≥ 400`, `filteredY`
approaches `0.0022 * gy` with ratio 0.85; and in scroll mode `scrollY` approaches
`0.15 * 0.0022 * gy` with ratio 0.6. -/
theorem smoothing_convergence (g : Globals) (m : Motion6)
    (hf : g.systemState.cursorFrozen = false) :
    (g.systemState.scrollMode = false → GYRO_DEADZONE ≤ |m.gx| →
      ApproachesGeometrically (fun n => (holdIMU g m n).filteredX)
        (-(22 / 10000) * (m.gx : ℚ)) (85 / 100))
    ∧ (g.systemState.scrollMode = false → GYRO_DEADZONE ≤ |m.gy| →
      ApproachesGeometrically (fun n => (holdIMU g m n).filteredY)
        ((22 / 10000) * (m.gy : ℚ)) (85 / 100))
    ∧ (g.systemState.scrollMode = true → GYRO_DEADZONE ≤ |m.gy| →
      ApproachesGeometrically (fun n => (holdIMU g m n).scrollY)
        ((15 / 100) * (22 / 10000) * (m.gy : ℚ)) (6 / 10)) := by
  have hfn : ∀ n, (holdIMU g m n).systemState.cursorFrozen = false := fun n => by
    rw [holdIMU_systemState, hf]
  refine ⟨fun hs hx => ?_, fun hs hy => ?_, fun hs hy => ?_⟩
  · have hsn : ∀ n, (holdIMU g m n).systemState.scrollMode = false := fun n => by
      rw [holdIMU_systemState, hs]
    refine approaches_of_step _ _ _ (by norm_num) (by norm_num) (fun n => ?_)
    show (processIMU (holdIMU g m n) m).1.filteredX - _ = _
    rw [processIMU_cursor _ m (hfn n) (hsn n), deadzone_of_le _ hx]
    simp only [SMOOTHING, GYRO_SENSITIVITY, X_AXIS_CORRECTION]
    push_cast
    ring
  · have hsn : ∀ n, (holdIMU g m n).systemState.scrollMode = false := fun n => by
      rw [holdIMU_systemState, hs]
    refine approaches_of_step _ _ _ (by norm_num) (by norm_num) (fun n => ?_)
    show (processIMU (holdIMU g m n) m).1.filteredY - _ = _
    rw [processIMU_cursor _ m (hfn n) (hsn n), deadzone_of_le _ hy]
    simp only [SMOOTHING, GYRO_SENSITIVITY, Y_AXIS_CORRECTION]
    push_cast
    ring
  · have hsn : ∀ n, (holdIMU g m n).systemState.scrollMode = true := fun n => by
      rw [holdIMU_systemState, hs]
    refine approaches_of_step _ _ _ (by norm_num) (by norm_num) (fun n => ?_)
    show (processIMU (holdIMU g m n) m).1.scrollY - _ = _
    rw [processIMU_scroll _ m (hfn n) (hsn n), deadzone_of_le _ hy]
    simp only [SCROLL_SMOOTHING, SCROLL_SENSITIVITY, GYRO_SENSITIVITY, Y_AXIS_CORRECTION]
    push_cast
    ring

/-- Witness for C6: from start-up, holding the reading 1000 makes `filteredX`
approach `-2.2` geometrically with ratio 0.85. -/
theorem smoothing_convergence_witness :
    initialState.systemState.cursorFrozen = false
    ∧ ApproachesGeometrically (fun n => (holdIMU initialState (gyroSample 1000) n).filteredX)
        (-(22 / 10000) * ((gyroSample 1000).gx : ℚ)) (85 / 100) :=
  ⟨rfl, (smoothing_convergence initialState (gyroSample 1000) rfl).1 rfl (by decide)⟩

/-! ## Cursor freeze -/

/-- Two states agree on everything the button pipeline reads or writes except
`cursorFrozen`: the button fields and `scrollMode`. -/
theorem sameButtons_iff (g h : Globals) :
    (buttonFields g = buttonFields h ∧ g.systemState.scrollMode = h.systemState.scrollMode)
    ↔ (g.systemState.leftPressed = h.systemState.leftPressed
      ∧ g.systemState.lastLeftPress = h.systemState.lastLeftPress
      ∧ g.systemState.lastLeftRelease = h.systemState.lastLeftRelease
      ∧ g.systemState.leftFirstClickTime = h.systemState.leftFirstClickTime
      ∧ g.systemState.leftClickCount = h.systemState.leftClickCount
      ∧ g.systemState.rightPressed = h.systemState.rightPressed
      ∧ g.systemState.lastRightPress = h.systemState.lastRightPress
      ∧ g.systemState.lastRightRelease = h.systemState.lastRightRelease
      ∧ g.systemState.rightFirstClickTime = h.systemState.rightFirstClickTime
      ∧ g.systemState.rightClickCount = h.systemState.rightClickCount
      ∧ g.systemState.scrollMode = h.systemState.scrollMode) := by
  simp only [buttonFields, Prod.mk.injEq]
  tauto

/-- On states that agree on the button fields and `scrollMode`,
`processLeftButton` gives states that still agree and the same events, and it
keeps `cursorFrozen`. -/
theorem processLeftButton_same (g h : Globals) (ms : Nat) (low : Bool)
    (hgh : buttonFields g = buttonFields h
      ∧ g.systemState.scrollMode = h.systemState.scrollMode) :
    (buttonFields (processLeftButton g ms low).1 = buttonFields (processLeftButton h ms low).1
      ∧ (processLeftButton g ms low).1.systemState.scrollMode
          = (processLeftButton h ms low).1.systemState.scrollMode)
    ∧ (processLeftButton g ms low).2 = (processLeftButton h ms low).2
    ∧ (processLeftButton g ms low).1.systemState.cursorFrozen = g.systemState.cursorFrozen := by
  rw [sameButtons_iff] at hgh ⊢
  obtain ⟨h1, h2, h3, h4, h5, h6, h7, h8, h9, h10, h11⟩ := hgh
  unfold processLeftButton
  simp only [h1, h2, h4, h5]
  split_ifs <;> simp_all

/-- On states that agree on the button fields and `scrollMode`,
`processRightButton` gives states that still agree and the same events, and it
keeps `cursorFrozen`. -/
theorem processRightButton_same (g h : Globals) (ms : Nat) (low : Bool)
    (hgh : buttonFields g = buttonFields h
      ∧ g.systemState.scrollMode = h.systemState.scrollMode) :
    (buttonFields (processRightButton g ms low).1
        = buttonFields (processRightButton h ms low).1
      ∧ (processRightButton g ms low).1.systemState.scrollMode
          = (processRightButton h ms low).1.systemState.scrollMode)
    ∧ (processRightButton g ms low).2 = (processRightButton h ms low).2
    ∧ (processRightButton g ms low).1.systemState.cursorFrozen
        = g.systemState.cursorFrozen := by
  rw [sameButtons_iff] at hgh ⊢
  obtain ⟨h1, h2, h3, h4, h5, h6, h7, h8, h9, h10, h11⟩ := hgh
  unfold processRightButton
  simp only [h6, h7, h9, h10]
  split_ifs <;> simp_all

/-- On states that agree on the button fields and `scrollMode`,
`handleLeftClicks` gives states that still agree and the same events, and it
keeps `cursorFrozen`. -/
theorem handleLeftClicks_same (g h : Globals) (ms : Nat) (c : Bool)
    (hgh : buttonFields g = buttonFields h
      ∧ g.systemState.scrollMode = h.systemState.scrollMode) :
    (buttonFields (handleLeftClicks g ms c).1 = buttonFields (handleLeftClicks h ms c).1
      ∧ (handleLeftClicks g ms c).1.systemState.scrollMode
          = (handleLeftClicks h ms c).1.systemState.scrollMode)
    ∧ (handleLeftClicks g ms c).2 = (handleLeftClicks h ms c).2
    ∧ (handleLeftClicks g ms c).1.systemState.cursorFrozen = g.systemState.cursorFrozen := by
  rw [sameButtons_iff] at hgh ⊢
  obtain ⟨h1, h2, h3, h4, h5, h6, h7, h8, h9, h10, h11⟩ := hgh
  unfold handleLeftClicks leftResolves handleLeftSingleClick handleLeftDoubleClick
    toggleScrollMode
  simp only [h1, h4, h5]
  split_ifs <;> simp_all

/-- On states that agree on the button fields and `scrollMode`,
`handleRightClicks` gives states that still agree and the same gestures, and it
toggles `cursorFrozen` in the one exactly when it does in the other. -/
theorem handleRightClicks_same (g h : Globals) (ms : Nat)
    (hgh : buttonFields g = buttonFields h
      ∧ g.systemState.scrollMode = h.systemState.scrollMode)
    (hcf : g.systemState.cursorFrozen = !h.systemState.cursorFrozen) :
    (buttonFields (handleRightClicks g ms).1 = buttonFields (handleRightClicks h ms).1
      ∧ (handleRightClicks g ms).1.systemState.scrollMode
          = (handleRightClicks h ms).1.systemState.scrollMode)
    ∧ gestures (handleRightClicks g ms).2 = gestures (handleRightClicks h ms).2
    ∧ (handleRightClicks g ms).1.systemState.cursorFrozen
        = !(handleRightClicks h ms).1.systemState.cursorFrozen := by
  rw [sameButtons_iff] at hgh ⊢
  obtain ⟨h1, h2, h3, h4, h5, h6, h7, h8, h9, h10, h11⟩ := hgh
  unfold handleRightClicks rightResolves toggleCursorFreeze
  simp only [h6, h9, h10]
  cases hh : h.systemState.cursorFrozen <;>
    split_ifs <;> simp_all [gestures]

/-- The gestures of a concatenation. -/
theorem gestures_append (xs ys : List Event) :
    gestures (xs ++ ys) = gestures xs ++ gestures ys := by
  induction xs with
  | nil => rfl
  | cons e es ih =>
    cases e with
    | move x y w hw => simpa [gestures] using ih
    | click b => simpa [gestures] using ih
    | delay ms => simpa [gestures] using ih
    | serial m => cases m <;> simpa [gestures] using ih

/-- The routine `processIMU` emits no gesture. -/
theorem gestures_processIMU (g : Globals) (m : Motion6) :
    gestures (processIMU g m).2 = [] := by
  cases hf : g.systemState.cursorFrozen
  · cases hs : g.systemState.scrollMode
    · rw [processIMU_cursor g m hf hs]; rfl
    · rw [processIMU_scroll g m hf hs]
      split_ifs <;> rfl
  · rw [processIMU_frozen g m hf]; rfl

/-- Claim C8: For every state with `cursorFrozen = true` and every input,
`processIMU` emits nothing and returns the state unchanged (so `filteredX`,
`filteredY`, `scrollX` and `scrollY` do not decay), the pass of `loop` sends no
move, and it yields the same button and click-aggregator fields, the same `scrollMode`, the
same clicks and toggles in the same order, and a freeze toggle exactly when the
pass from the same state with `cursorFrozen = false` does. -/
theorem frozen_tick (g : Globals) (i : Input) (hf : g.systemState.cursorFrozen = true) :
    processIMU g i.sample = (g, [])
    ∧ buttonFields (loop g i).1 = buttonFields (loop (withFrozen g false) i).1
    ∧ (loop g i).1.systemState.scrollMode
        = (loop (withFrozen g false) i).1.systemState.scrollMode
    ∧ gestures (loop g i).2 = gestures (loop (withFrozen g false) i).2
    ∧ (loop g i).1.systemState.cursorFrozen
        = !(loop (withFrozen g false) i).1.systemState.cursorFrozen
    ∧ moveList (loop g i).2 = [] := by
  have hmove : moveList (loop g i).2 = [] := by
    rw [moveList_loop, processIMU_frozen g _ hf]
    simp [moveList]
  refine ⟨processIMU_frozen g _ hf, ?_⟩
  suffices hmain : buttonFields (loop g i).1 = buttonFields (loop (withFrozen g false) i).1
      ∧ (loop g i).1.systemState.scrollMode
          = (loop (withFrozen g false) i).1.systemState.scrollMode
      ∧ gestures (loop g i).2 = gestures (loop (withFrozen g false) i).2
      ∧ (loop g i).1.systemState.cursorFrozen
          = !(loop (withFrozen g false) i).1.systemState.cursorFrozen from
    ⟨hmain.1, hmain.2.1, hmain.2.2.1, hmain.2.2.2, hmove⟩
  cases hc : i.connected
  · simp [loop, hc, buttonFields, withFrozen, hf, gestures]
  · have hss := processIMU_systemState (withFrozen g false) i.sample
    have h0 : buttonFields g = buttonFields (processIMU (withFrozen g false) i.sample).1
        ∧ g.systemState.scrollMode
            = (processIMU (withFrozen g false) i.sample).1.systemState.scrollMode := by
      simp only [buttonFields, hss]
      simp [withFrozen]
    have c0 : g.systemState.cursorFrozen
        = !(processIMU (withFrozen g false) i.sample).1.systemState.cursorFrozen := by
      rw [hss]
      simp [withFrozen, hf]
    obtain ⟨h1, e1, c1⟩ := processLeftButton_same _ _ (millis i.now) i.leftLow h0
    have c1' := (processLeftButton_same _ _ (millis i.now) i.leftLow
      ⟨h0.1.symm, h0.2.symm⟩).2.2
    obtain ⟨h2, e2, c2⟩ := processRightButton_same _ _ (millis i.now) i.rightLow h1
    have c2' := (processRightButton_same _ _ (millis i.now) i.rightLow
      ⟨h1.1.symm, h1.2.symm⟩).2.2
    obtain ⟨h3, e3, c3⟩ := handleLeftClicks_same _ _ (millis i.now) i.connectedAtClick h2
    have c3' := (handleLeftClicks_same _ _ (millis i.now) i.connectedAtClick
      ⟨h2.1.symm, h2.2.symm⟩).2.2
    have c4 := c3.trans (c2.trans (c1.trans c0))
    rw [← c1', ← c2', ← c3'] at c4
    have h4 := handleRightClicks_same _ _
      (millis (i.now + delayed (handleLeftClicks (processRightButton (processLeftButton g
        (millis i.now) i.leftLow).1 (millis i.now) i.rightLow).1 (millis i.now)
        i.connectedAtClick).2)) h3 c4
    simp only [loop, hc, Bool.not_true, Bool.false_eq_true, if_false, processIMU_frozen g _ hf,
      gestures_append, gestures_processIMU]
    rw [← e3, ← e2, ← e1]
    exact ⟨h4.1.1, h4.1.2, by rw [h4.2.1]; rfl, h4.2.2⟩

/-- Witness for C8: with the cursor frozen and one right press pending, the
pass at time 1500 emits the same gestures as from the unfrozen state. -/
theorem frozen_tick_witness :
    (withFrozen (rightPending 1) true).systemState.cursorFrozen = true
    ∧ gestures (loop (withFrozen (rightPending 1) true) (tickAt 1500 false false)).2
        = gestures (loop (withFrozen (withFrozen (rightPending 1) true) false)
            (tickAt 1500 false false)).2 :=
  ⟨rfl, (frozen_tick (withFrozen (rightPending 1) true) (tickAt 1500 false false) rfl).2.2.2.1⟩

/-- Claim C9: Two consecutive resolutions of a right-button count of 2 restore
`cursorFrozen`, for either starting value, and leave `scrollMode` and the four
filter accumulators as they were: if `g'` is any state in which the second
double-click resolves and whose mode and accumulators are those left by the
first resolution from `g`, the second resolution gives back the mode and
accumulators of `g`; and `toggleCursorFreeze` applied twice returns the state it
started from. -/
theorem freeze_twice_restores (g g' : Globals) (ms ms' : Nat)
    (h1 : rightResolves g ms = true) (hc1 : g.systemState.rightClickCount = 2)
    (h2 : rightResolves g' ms' = true) (hc2 : g'.systemState.rightClickCount = 2)
    (hmid : modeFields g' = modeFields (handleRightClicks g ms).1) :
    modeFields (handleRightClicks g' ms').1 = modeFields g
    ∧ (handleRightClicks g' ms').1.systemState.cursorFrozen = g.systemState.cursorFrozen
    ∧ (toggleCursorFreeze (toggleCursorFreeze g).1).1 = g := by
  have e1 : modeFields (handleRightClicks g ms).1
      = (g.systemState.scrollMode, !g.systemState.cursorFrozen,
          g.filteredX, g.filteredY, g.scrollX, g.scrollY) := by
    simp [handleRightClicks, h1, hc1, toggleCursorFreeze, modeFields]
  have e2 : modeFields (handleRightClicks g' ms').1
      = (g'.systemState.scrollMode, !g'.systemState.cursorFrozen,
          g'.filteredX, g'.filteredY, g'.scrollX, g'.scrollY) := by
    simp [handleRightClicks, h2, hc2, toggleCursorFreeze, modeFields]
  rw [e1] at hmid
  simp only [modeFields, Prod.mk.injEq] at hmid e2 ⊢
  obtain ⟨m1, m2, m3, m4, m5, m6⟩ := hmid
  obtain ⟨n1, n2, n3, n4, n5, n6⟩ := e2
  refine ⟨⟨by rw [n1, m1], by rw [n2, m2, Bool.not_not], by rw [n3, m3], by rw [n4, m4],
    by rw [n5, m5], by rw [n6, m6]⟩, by rw [n2, m2, Bool.not_not], ?_⟩
  simp [toggleCursorFreeze]

/-- Witness for C9: a right double-click from start-up freezes the cursor, and
a second one from the frozen state unfreezes it. -/
theorem freeze_twice_restores_witness :
    rightResolves (rightPending 2) 1500 = true
    ∧ rightResolves (withFrozen (rightPending 2) true) 1500 = true
    ∧ (handleRightClicks (withFrozen (rightPending 2) true) 1500).1.systemState.cursorFrozen
        = false :=
  ⟨by decide, by decide,
   (freeze_twice_restores (rightPending 2) (withFrozen (rightPending 2) true) 1500 1500
      (by decide) rfl (by decide) rfl (by decide)).2.1⟩

/-! ## The routines act on the button views -/

/-- The clicks of a concatenation. -/
theorem clicks_append (b : MouseButton) (xs ys : List Event) :
    clicks b (xs ++ ys) = clicks b xs + clicks b ys := by
  induction xs with
  | nil => simp [clicks]
  | cons e es ih => cases e <;> simp [clicks, ih, Nat.add_assoc]

/-- The scroll toggles of a concatenation. -/
theorem scrollToggles_append (xs ys : List Event) :
    scrollToggles (xs ++ ys) = scrollToggles xs + scrollToggles ys := by
  induction xs with
  | nil => simp [scrollToggles]
  | cons e es ih =>
    cases e with
    | move x y w hw => simp [scrollToggles, ih]
    | click b => simp [scrollToggles, ih]
    | delay ms => simp [scrollToggles, ih]
    | serial m => cases m <;> simp [scrollToggles, ih, Nat.add_assoc]

/-- The accepted presses of a concatenation. -/
theorem presses_append (b : MouseButton) (xs ys : List Event) :
    presses b (xs ++ ys) = presses b xs + presses b ys := by
  induction xs with
  | nil => simp [presses]
  | cons e es ih =>
    cases e with
    | move x y w hw => simp [presses, ih]
    | click b => simp [presses, ih]
    | delay ms => simp [presses, ih]
    | serial m => cases m <;> simp [presses, ih, Nat.add_assoc]

/-- The routine `processIMU` emits no click, toggle or press line. -/
theorem processIMU_quiet (g : Globals) (m : Motion6) (b : MouseButton) :
    clicks b (processIMU g m).2 = 0 ∧ scrollToggles (processIMU g m).2 = 0
    ∧ presses b (processIMU g m).2 = 0 := by
  cases hf : g.systemState.cursorFrozen
  · cases hs : g.systemState.scrollMode
    · rw [processIMU_cursor g m hf hs]; simp [clicks, scrollToggles, presses]
    · rw [processIMU_scroll g m hf hs]
      split_ifs <;> simp [clicks, scrollToggles, presses]
  · rw [processIMU_frozen g m hf]; simp [clicks, scrollToggles, presses]

/-- The routine `processLeftButton` performs `debounceStep` on the left view,
leaves the right view alone, and writes one press line exactly when it accepts
a press. -/
theorem processLeftButton_view (g : Globals) (ms : Nat) (low : Bool) :
    leftView (processLeftButton g ms low).1 = debounceStep (leftView g) ms low
    ∧ rightView (processLeftButton g ms low).1 = rightView g
    ∧ presses MouseButton.MOUSE_LEFT (processLeftButton g ms low).2
        = (if accepts (leftView g) ms low then 1 else 0)
    ∧ presses MouseButton.MOUSE_RIGHT (processLeftButton g ms low).2 = 0
    ∧ (∀ b, clicks b (processLeftButton g ms low).2 = 0)
    ∧ scrollToggles (processLeftButton g ms low).2 = 0 := by
  unfold processLeftButton debounceStep accepts leftView rightView
  cases low <;> cases hp : g.systemState.leftPressed <;>
    simp [hp, presses, clicks, scrollToggles]
  all_goals (split_ifs <;> simp_all [presses, clicks, scrollToggles])

/-- The routine `processRightButton` performs `debounceStep` on the right view,
leaves the left view alone, and writes one press line exactly when it accepts
a press. -/
theorem processRightButton_view (g : Globals) (ms : Nat) (low : Bool) :
    rightView (processRightButton g ms low).1 = debounceStep (rightView g) ms low
    ∧ leftView (processRightButton g ms low).1 = leftView g
    ∧ presses MouseButton.MOUSE_RIGHT (processRightButton g ms low).2
        = (if accepts (rightView g) ms low then 1 else 0)
    ∧ presses MouseButton.MOUSE_LEFT (processRightButton g ms low).2 = 0
    ∧ (∀ b, clicks b (processRightButton g ms low).2 = 0)
    ∧ scrollToggles (processRightButton g ms low).2 = 0 := by
  unfold processRightButton debounceStep accepts leftView rightView
  cases low <;> cases hp : g.systemState.rightPressed <;>
    simp [hp, presses, clicks, scrollToggles]
  all_goals (split_ifs <;> simp_all [presses, clicks, scrollToggles])

/-- The routine `handleLeftClicks` performs `resolveStep` on the left view,
leaves the right view alone, writes no press line, sends no secondary click,
and with the peer connected sends the primary clicks and scroll toggles of the
count it resolves. -/
theorem handleLeftClicks_view (g : Globals) (ms : Nat) (c : Bool) :
    leftView (handleLeftClicks g ms c).1 = resolveStep (leftView g) ms
    ∧ rightView (handleLeftClicks g ms c).1 = rightView g
    ∧ (∀ b, presses b (handleLeftClicks g ms c).2 = 0)
    ∧ clicks MouseButton.MOUSE_RIGHT (handleLeftClicks g ms c).2 = 0
    ∧ (c = true → clicks MouseButton.MOUSE_LEFT (handleLeftClicks g ms c).2
        = (if resolves (leftView g) ms then dispatchClicks (leftView g).clickCount else 0))
    ∧ scrollToggles (handleLeftClicks g ms c).2
        = (if resolves (leftView g) ms then dispatchToggles (leftView g).clickCount else 0) := by
  have hr : leftResolves g ms = resolves (leftView g) ms := rfl
  unfold handleLeftClicks
  rw [hr]
  cases hres : resolves (leftView g) ms
  · simp [resolveStep, hres, presses, clicks, scrollToggles]
  · simp only [if_true, resolveStep, hres]
    unfold handleLeftSingleClick handleLeftDoubleClick toggleScrollMode dispatchClicks
      dispatchToggles leftView rightView
    cases c <;> cases hsm : g.systemState.scrollMode <;> split_ifs <;>
      simp_all [presses, clicks, scrollToggles]

/-- The routine `handleRightClicks` performs `resolveStep` on the right view,
leaves the left view alone, writes no press line, sends no primary click and
toggles no scroll mode. -/
theorem handleRightClicks_view (g : Globals) (ms : Nat) :
    rightView (handleRightClicks g ms).1 = resolveStep (rightView g) ms
    ∧ leftView (handleRightClicks g ms).1 = leftView g
    ∧ (∀ b, presses b (handleRightClicks g ms).2 = 0)
    ∧ clicks MouseButton.MOUSE_LEFT (handleRightClicks g ms).2 = 0
    ∧ scrollToggles (handleRightClicks g ms).2 = 0 := by
  have hr : rightResolves g ms = resolves (rightView g) ms := rfl
  unfold handleRightClicks
  rw [hr]
  cases hres : resolves (rightView g) ms
  · simp [resolveStep, hres, presses, clicks, scrollToggles]
  · simp only [if_true, resolveStep, hres]
    unfold toggleCursorFreeze leftView rightView
    cases hcf : g.systemState.cursorFrozen <;> split_ifs <;>
      simp_all [presses, clicks, scrollToggles]

/-- The views are read off `systemState` only. -/
theorem views_processIMU (g : Globals) (m : Motion6) :
    leftView (processIMU g m).1 = leftView g ∧ rightView (processIMU g m).1 = rightView g := by
  simp [leftView, rightView, processIMU_systemState]

/-- A pass of `loop` without a connected peer changes nothing and accepts no
press. -/
theorem loop_disconnected (g : Globals) (i : Input) (hc : i.connected = false) :
    loop g i = (g, [Event.delay 100]) := by
  simp [loop, hc]

/-- A connected pass of `loop` on the left button: the view goes through
`debounceStep` and then `resolveStep` at the same clock value, one press line is
written exactly when the press is accepted, and (with the peer still connected
in the click handlers) the primary clicks and scroll toggles are those of the
count resolved. -/
theorem loop_left (g : Globals) (i : Input) (hc : i.connected = true) :
    leftView (loop g i).1
      = resolveStep (debounceStep (leftView g) (millis i.now) i.leftLow) (millis i.now)
    ∧ presses MouseButton.MOUSE_LEFT (loop g i).2
      = (if accepts (leftView g) (millis i.now) i.leftLow then 1 else 0)
    ∧ (i.connectedAtClick = true → clicks MouseButton.MOUSE_LEFT (loop g i).2
      = (if resolves (debounceStep (leftView g) (millis i.now) i.leftLow) (millis i.now)
          then dispatchClicks (debounceStep (leftView g) (millis i.now) i.leftLow).clickCount
          else 0))
    ∧ scrollToggles (loop g i).2
      = (if resolves (debounceStep (leftView g) (millis i.now) i.leftLow) (millis i.now)
          then dispatchToggles (debounceStep (leftView g) (millis i.now) i.leftLow).clickCount
          else 0) := by
  have a := views_processIMU g i.sample
  have q := processIMU_quiet g i.sample
  have b := processLeftButton_view (processIMU g i.sample).1 (millis i.now) i.leftLow
  have c := processRightButton_view
    (processLeftButton (processIMU g i.sample).1 (millis i.now) i.leftLow).1
    (millis i.now) i.rightLow
  have d := handleLeftClicks_view
    (processRightButton (processLeftButton (processIMU g i.sample).1 (millis i.now)
      i.leftLow).1 (millis i.now) i.rightLow).1 (millis i.now) i.connectedAtClick
  have e := handleRightClicks_view
    (handleLeftClicks (processRightButton (processLeftButton (processIMU g i.sample).1
      (millis i.now) i.leftLow).1 (millis i.now) i.rightLow).1 (millis i.now)
      i.connectedAtClick).1
    (millis (i.now + delayed (handleLeftClicks (processRightButton (processLeftButton
      (processIMU g i.sample).1 (millis i.now) i.leftLow).1 (millis i.now) i.rightLow).1
      (millis i.now) i.connectedAtClick).2))
  rw [a.1] at b
  rw [c.2.1, b.1] at d
  rw [d.1] at e
  simp only [loop, hc, Bool.not_true, Bool.false_eq_true, if_false, presses_append,
    clicks_append, scrollToggles_append]
  refine ⟨e.2.1, ?_, fun hcc => ?_, ?_⟩
  · rw [(q MouseButton.MOUSE_LEFT).2.2, b.2.2.1, c.2.2.2.1, d.2.2.1, e.2.2.1]
    simp [presses]
  · rw [(q MouseButton.MOUSE_LEFT).1, b.2.2.2.2.1, c.2.2.2.2.1, d.2.2.2.2.1 hcc, e.2.2.2.1]
    simp [clicks]
  · rw [(q MouseButton.MOUSE_LEFT).2.1, b.2.2.2.2.2, c.2.2.2.2.2, d.2.2.2.2.2, e.2.2.2.2]
    simp [scrollToggles]

/-- A connected pass of `loop` on the right button: the view goes through
`debounceStep` at the clock value of the pass and then `resolveStep` at a
possibly later one, and one press line is written exactly when the press is
accepted. -/
theorem loop_right (g : Globals) (i : Input) (hc : i.connected = true) :
    (∃ ms, rightView (loop g i).1
      = resolveStep (debounceStep (rightView g) (millis i.now) i.rightLow) ms)
    ∧ presses MouseButton.MOUSE_RIGHT (loop g i).2
      = (if accepts (rightView g) (millis i.now) i.rightLow then 1 else 0) := by
  have a := views_processIMU g i.sample
  have q := processIMU_quiet g i.sample
  have b := processLeftButton_view (processIMU g i.sample).1 (millis i.now) i.leftLow
  have c := processRightButton_view
    (processLeftButton (processIMU g i.sample).1 (millis i.now) i.leftLow).1
    (millis i.now) i.rightLow
  have d := handleLeftClicks_view
    (processRightButton (processLeftButton (processIMU g i.sample).1 (millis i.now)
      i.leftLow).1 (millis i.now) i.rightLow).1 (millis i.now) i.connectedAtClick
  have e := handleRightClicks_view
    (handleLeftClicks (processRightButton (processLeftButton (processIMU g i.sample).1
      (millis i.now) i.leftLow).1 (millis i.now) i.rightLow).1 (millis i.now)
      i.connectedAtClick).1
    (millis (i.now + delayed (handleLeftClicks (processRightButton (processLeftButton
      (processIMU g i.sample).1 (millis i.now) i.leftLow).1 (millis i.now) i.rightLow).1
      (millis i.now) i.connectedAtClick).2))
  rw [b.2.1, a.2] at c
  rw [d.2.1, c.1] at e
  simp only [loop, hc, Bool.not_true, Bool.false_eq_true, if_false, presses_append]
  refine ⟨⟨_, e.1⟩, ?_⟩
  rw [(q MouseButton.MOUSE_RIGHT).2.2, b.2.2.2.1, c.2.2.1, d.2.2.1, e.2.2.1]
  simp [presses]

/-- The time of the last accepted press after `debounceStep`. -/
theorem debounceStep_lastPress (v : ButtonView) (ms : Nat) (low : Bool) :
    (debounceStep v ms low).lastPress = if accepts v ms low then ms else v.lastPress := by
  unfold debounceStep
  split_ifs <;> rfl

/-- The routine `resolveStep` keeps the time of the last accepted press. -/
theorem resolveStep_lastPress (v : ButtonView) (ms : Nat) :
    (resolveStep v ms).lastPress = v.lastPress := by
  unfold resolveStep
  split_ifs <;> rfl

/-- One pass of `loop`, for either button: a press is accepted exactly when the
peer is connected and the press guard holds on the state the pass starts in, and
the recorded time of the last accepted press becomes the clock value of the
pass in that case and is kept otherwise. -/
theorem loop_button (b : MouseButton) (g : Globals) (i : Input) :
    presses b (loop g i).2
      = (if i.connected && accepts (buttonView b g) (millis i.now) (rawLow b i) then 1 else 0)
    ∧ (buttonView b (loop g i).1).lastPress
      = (if i.connected && accepts (buttonView b g) (millis i.now) (rawLow b i)
          then millis i.now else (buttonView b g).lastPress) := by
  cases hc : i.connected
  · rw [loop_disconnected g i hc]
    simp [presses]
  · cases b
    · have h := loop_left g i hc
      simp only [buttonView, rawLow, Bool.true_and]
      rw [h.1, h.2.1, resolveStep_lastPress, debounceStep_lastPress]
      exact ⟨rfl, rfl⟩
    · obtain ⟨⟨ms, h1⟩, h2⟩ := loop_right g i hc
      simp only [buttonView, rawLow, Bool.true_and]
      rw [h1, h2, resolveStep_lastPress, debounceStep_lastPress]
      exact ⟨rfl, rfl⟩

/-! ## Debounce -/

/-- The unsigned difference of two clock values is the true difference modulo
`2 ^ 32`. -/
theorem elapsed_millis (r t : Nat) (h : r ≤ t) :
    elapsed (millis t) (millis r) = (t - r) % ULONG_MOD := by
  unfold elapsed millis ULONG_MOD
  norm_num
  omega

/-- The unsigned difference is the true difference when that is below
`2 ^ 32`. -/
theorem elapsed_millis_lt (r t : Nat) (h : r ≤ t) (h2 : t < r + ULONG_MOD) :
    elapsed (millis t) (millis r) = t - r := by
  rw [elapsed_millis r t h]
  exact Nat.mod_eq_of_lt (by omega)

/-- The run of a concatenation. -/
theorem run_append (g : Globals) (xs ys : List Input) :
    run g (xs ++ ys) = ((run (run g xs).1 ys).1, (run g xs).2 ++ (run (run g xs).1 ys).2) := by
  induction xs generalizing g with
  | nil => simp [run]
  | cons i is ih => simp [run, ih, List.append_assoc]

/-- The state a pass starts in is the state the previous pass ended in. -/
theorem stateAt_succ (g : Globals) (ins : List Input) (k : Nat) (hk : k < ins.length) :
    stateAt g ins (k + 1) = (loop (stateAt g ins k) ins[k]).1 := by
  unfold stateAt
  rw [List.take_succ, List.getElem?_eq_getElem hk, run_append]
  simp [run]

/-- After a pass at time `lo` accepted a press of button `b`, and as long as
the later passes have times between `lo` and `hi`, the recorded time of the last
accepted press is the clock value of a time between `lo` and `hi`. -/
theorem lastPress_window (b : MouseButton) (g : Globals) (ins : List Input) (j : Nat)
    (hord : TimeOrdered ins) (hacc : pressesAt b g ins j = 1) (m : Nat) (hjm : j < m)
    (hm : m < ins.length) :
    ∃ r, timeAt ins j ≤ r ∧ r ≤ timeAt ins m
      ∧ (buttonView b (stateAt g ins m)).lastPress = millis r := by
  have hj : j < ins.length := by omega
  have htime : ∀ a c (_ : a < c) (hc : c < ins.length), timeAt ins a ≤ timeAt ins c := by
    intro a c hac hc
    have ha : a < ins.length := by omega
    simp only [timeAt, List.getElem?_eq_getElem ha, List.getElem?_eq_getElem hc]
    exact List.pairwise_iff_getElem.mp hord a c ha hc hac
  induction m with
  | zero => omega
  | succ n ih =>
    have hn : n < ins.length := by omega
    have hstep := (loop_button b (stateAt g ins n) ins[n]).2
    rw [← stateAt_succ g ins n hn] at hstep
    have htn : timeAt ins n = ins[n].now := by
      simp [timeAt, List.getElem?_eq_getElem hn]
    rcases Nat.lt_or_ge j n with hlt | hge
    · obtain ⟨r, h1, h2, h3⟩ := ih hlt hn
      rw [hstep]
      split_ifs
      · exact ⟨ins[n].now, by rw [← htn]; exact htime j n hlt hn,
          by rw [← htn]; exact htime n (n + 1) (by omega) hm, rfl⟩
      · exact ⟨r, h1, le_trans h2 (htime n (n + 1) (by omega) hm), h3⟩
    · have hjn : j = n := by omega
      subst hjn
      have hp := (loop_button b (stateAt g ins j) ins[j]).1
      simp only [pressesAt, List.getElem?_eq_getElem hn] at hacc
      rw [hacc] at hp
      have hcond : (ins[j].connected
          && accepts (buttonView b (stateAt g ins j)) (millis ins[j].now) (rawLow b ins[j]))
          = true := by
        by_contra hne
        rw [if_neg hne] at hp
        omega
      rw [hstep, if_pos hcond]
      exact ⟨ins[j].now, by rw [htn], by rw [← htn]; exact htime j (j + 1) (by omega) hm, rfl⟩

/-- A pass accepts at most one press of a button. -/
theorem pressesAt_le_one (b : MouseButton) (g : Globals) (ins : List Input) (k : Nat) :
    pressesAt b g ins k ≤ 1 := by
  unfold pressesAt
  cases h : ins[k]? with
  | none => simp
  | some i =>
    simp only
    rw [(loop_button b (stateAt g ins k) i).1]
    split_ifs <;> simp

/-- Claim C4 (amended): For either button, every start state and every run with
non-decreasing times: two passes whose times differ by at most
`DEBOUNCE_DELAY` (50 ms) accept at most one press edge between them, so the
button's click count is incremented at no more than one of the two passes (and
the later pass accepts nothing when the earlier one accepted). -/
theorem debounce_at_most_one (b : MouseButton) (g : Globals) (ins : List Input) (j k : Nat)
    (hjk : j < k) (hk : k < ins.length) (hord : TimeOrdered ins)
    (hclose : timeAt ins k ≤ timeAt ins j + DEBOUNCE_DELAY) :
    pressesAt b g ins j + pressesAt b g ins k ≤ 1
    ∧ (pressesAt b g ins j = 1 → pressesAt b g ins k = 0) := by
  have key : pressesAt b g ins j = 1 → pressesAt b g ins k = 0 := by
    intro hacc
    obtain ⟨r, h1, h2, h3⟩ := lastPress_window b g ins j hord hacc k hjk hk
    have htk : timeAt ins k = ins[k].now := by
      simp [timeAt, List.getElem?_eq_getElem hk]
    simp only [pressesAt, List.getElem?_eq_getElem hk]
    rw [(loop_button b (stateAt g ins k) ins[k]).1]
    have hno : accepts (buttonView b (stateAt g ins k)) (millis ins[k].now) (rawLow b ins[k])
        = false := by
      have hel : elapsed (millis ins[k].now) (millis r) = ins[k].now - r :=
        elapsed_millis_lt r _ (by omega) (by unfold ULONG_MOD; unfold DEBOUNCE_DELAY at hclose; omega)
      unfold accepts
      rw [h3, hel]
      have : ¬ (ins[k].now - r > DEBOUNCE_DELAY) := by
        unfold DEBOUNCE_DELAY at hclose ⊢
        omega
      simp [this]
    simp [hno]
  refine ⟨?_, key⟩
  have hj1 := pressesAt_le_one b g ins j
  have hk1 := pressesAt_le_one b g ins k
  rcases Nat.lt_or_ge (pressesAt b g ins j) 1 with h0 | h1
  · omega
  · have := key (by omega)
    omega

set_option maxRecDepth 100000 in
/-- Witness for C4 (amended): in the bouncing run the passes at times 1008 and
1024 accept one press between them. -/
theorem debounce_at_most_one_witness :
    TimeOrdered bounceRun
    ∧ pressesAt MouseButton.MOUSE_LEFT initialState bounceRun 1
        + pressesAt MouseButton.MOUSE_LEFT initialState bounceRun 3 ≤ 1 :=
  ⟨by unfold TimeOrdered; decide,
   (debounce_at_most_one MouseButton.MOUSE_LEFT initialState bounceRun 1 3 (by decide)
      (by decide) (by unfold TimeOrdered; decide) (by decide)).1⟩

set_option maxRecDepth 100000 in
/-- Counterexample to C4 as stated.  In `bounceRun` (non-decreasing times) the
passes 3 and 5 both see a raw press edge of the left button, 16 ms apart, and
neither is accepted: zero accepted presses for the two, not one.  In `heldRun`
the only two raw press edges are 16 ms apart (passes 1 and 3), yet two presses
are accepted (at passes 1 and 8) and `leftClickCount` ends at 2. -/
theorem debounce_exactly_one_fails :
    (TimeOrdered bounceRun
      ∧ rawEdgeAfter MouseButton.MOUSE_LEFT bounceRun 2 = true
      ∧ rawEdgeAfter MouseButton.MOUSE_LEFT bounceRun 4 = true
      ∧ timeAt bounceRun 5 - timeAt bounceRun 3 < DEBOUNCE_DELAY
      ∧ pressesAt MouseButton.MOUSE_LEFT initialState bounceRun 3
          + pressesAt MouseButton.MOUSE_LEFT initialState bounceRun 5 ≠ 1)
    ∧ (TimeOrdered heldRun
      ∧ (List.range 10).filter (fun k => rawEdgeAfter MouseButton.MOUSE_LEFT heldRun k) = [0, 2]
      ∧ timeAt heldRun 3 - timeAt heldRun 1 < DEBOUNCE_DELAY
      ∧ (List.range 10).map (fun k => pressesAt MouseButton.MOUSE_LEFT initialState heldRun k)
          = [0, 1, 0, 0, 0, 0, 0, 0, 1, 0]
      ∧ (run initialState heldRun).1.systemState.leftClickCount = 2) := by
  refine ⟨⟨by unfold TimeOrdered; decide, by decide, by decide, by decide, by decide⟩,
    ⟨by unfold TimeOrdered; decide, by decide, by decide, by decide, by decide⟩⟩

/-! ## Click resolution -/

/-- Every accepted press time of a run is the time of one of its passes. -/
theorem leftPressTimes_mem (g : Globals) (ins : List Input) (t : Nat)
    (ht : t ∈ leftPressTimes g ins) : ∃ i ∈ ins, i.now = t := by
  induction ins generalizing g with
  | nil => simp [leftPressTimes] at ht
  | cons i is ih =>
    unfold leftPressTimes at ht
    split_ifs at ht
    · rcases List.mem_cons.mp ht with h | h
      · exact ⟨i, List.mem_cons_self _ _, h.symm⟩
      · obtain ⟨x, hx, hxt⟩ := ih _ h
        exact ⟨x, List.mem_cons_of_mem _ hx, hxt⟩
    · obtain ⟨x, hx, hxt⟩ := ih _ ht
      exact ⟨x, List.mem_cons_of_mem _ hx, hxt⟩

/-- A pass that accepts a left press does not resolve, and leaves the view
pressed with the count 1 in a new window, or one more in the current one. -/
theorem loop_left_accept (g : Globals) (i : Input) (hc : i.connected = true)
    (hcc : i.connectedAtClick = true)
    (hacc : accepts (leftView g) (millis i.now) i.leftLow = true) :
    leftView (loop g i).1
      = (if elapsed (millis i.now) (leftView g).firstClickTime > MULTI_CLICK_TIMEOUT then
          { pressed := true, lastPress := millis i.now, firstClickTime := millis i.now
            clickCount := 1 }
        else
          { pressed := true, lastPress := millis i.now
            firstClickTime := (leftView g).firstClickTime
            clickCount := (leftView g).clickCount + 1 })
    ∧ clicks MouseButton.MOUSE_LEFT (loop g i).2 = 0
    ∧ scrollToggles (loop g i).2 = 0 := by
  obtain ⟨h1, _, h3, h4⟩ := loop_left g i hc
  have hp : (debounceStep (leftView g) (millis i.now) i.leftLow).pressed = true := by
    unfold debounceStep
    rw [if_pos hacc]
    split_ifs <;> rfl
  have hr : resolves (debounceStep (leftView g) (millis i.now) i.leftLow) (millis i.now)
      = false := by
    simp [resolves, hp]
  have hv : resolveStep (debounceStep (leftView g) (millis i.now) i.leftLow) (millis i.now)
      = debounceStep (leftView g) (millis i.now) i.leftLow := by
    simp [resolveStep, hr]
  rw [h1, h3 hcc, h4, hr, hv]
  refine ⟨?_, by simp, by simp⟩
  unfold debounceStep
  rw [if_pos hacc]
  split_ifs <;> simp

/-- A pass that accepts no left press keeps the count and the window start
through the debounce step, and has released the view when the pin reads
released. -/
theorem debounceStep_reject (v : ButtonView) (ms : Nat) (low : Bool)
    (hacc : accepts v ms low = false) :
    (debounceStep v ms low).clickCount = v.clickCount
    ∧ (debounceStep v ms low).firstClickTime = v.firstClickTime
    ∧ (low = false → (debounceStep v ms low).pressed = false) := by
  unfold debounceStep
  rw [hacc]
  cases low <;> cases hp : v.pressed <;> simp [hp]

/-- The accepted press times of a run whose first pass accepts a press. -/
theorem leftPressTimes_cons_accept (g : Globals) (i : Input) (is : List Input)
    (hc : i.connected = true)
    (hacc : accepts (leftView g) (millis i.now) i.leftLow = true) :
    leftPressTimes g (i :: is) = i.now :: leftPressTimes (loop g i).1 is := by
  have h := (loop_left g i hc).2.1
  rw [if_pos hacc] at h
  simp [leftPressTimes, h]

/-- The accepted press times of a run whose first pass accepts no press. -/
theorem leftPressTimes_cons_reject (g : Globals) (i : Input) (is : List Input)
    (hc : i.connected = true)
    (hacc : accepts (leftView g) (millis i.now) i.leftLow = false) :
    leftPressTimes g (i :: is) = leftPressTimes (loop g i).1 is := by
  have h := (loop_left g i hc).2.1
  rw [hacc] at h
  simp [leftPressTimes, h]

/-- The events of a run that starts with pass `i`. -/
theorem run_cons_events (g : Globals) (i : Input) (is : List Input) :
    clicks MouseButton.MOUSE_LEFT (run g (i :: is)).2
      = clicks MouseButton.MOUSE_LEFT (loop g i).2
        + clicks MouseButton.MOUSE_LEFT (run (loop g i).1 is).2
    ∧ scrollToggles (run g (i :: is)).2
      = scrollToggles (loop g i).2 + scrollToggles (run (loop g i).1 is).2 := by
  simp [run, clicks_append, scrollToggles_append]

/-- A pass that accepts no left press and does not resolve keeps the count and
the window start and sends no primary click and no scroll toggle. -/
theorem loop_left_idle (g : Globals) (i : Input) (hc : i.connected = true)
    (hcc : i.connectedAtClick = true)
    (hacc : accepts (leftView g) (millis i.now) i.leftLow = false)
    (hres : resolves (debounceStep (leftView g) (millis i.now) i.leftLow) (millis i.now)
      = false) :
    (leftView (loop g i).1).clickCount = (leftView g).clickCount
    ∧ (leftView (loop g i).1).firstClickTime = (leftView g).firstClickTime
    ∧ clicks MouseButton.MOUSE_LEFT (loop g i).2 = 0
    ∧ scrollToggles (loop g i).2 = 0 := by
  obtain ⟨h1, _, h3, h4⟩ := loop_left g i hc
  obtain ⟨d1, d2, _⟩ := debounceStep_reject (leftView g) (millis i.now) i.leftLow hacc
  have hv : resolveStep (debounceStep (leftView g) (millis i.now) i.leftLow) (millis i.now)
      = debounceStep (leftView g) (millis i.now) i.leftLow := by
    simp [resolveStep, hres]
  rw [h1, h3 hcc, h4, hres, hv]
  exact ⟨d1, d2, by simp, by simp⟩

/-- A pass that accepts no left press and resolves sends the primary clicks and
scroll toggles of the pending count and clears the count. -/
theorem loop_left_resolve (g : Globals) (i : Input) (hc : i.connected = true)
    (hcc : i.connectedAtClick = true)
    (hacc : accepts (leftView g) (millis i.now) i.leftLow = false)
    (hres : resolves (debounceStep (leftView g) (millis i.now) i.leftLow) (millis i.now)
      = true) :
    (leftView (loop g i).1).clickCount = 0
    ∧ clicks MouseButton.MOUSE_LEFT (loop g i).2 = dispatchClicks (leftView g).clickCount
    ∧ scrollToggles (loop g i).2 = dispatchToggles (leftView g).clickCount := by
  obtain ⟨h1, _, h3, h4⟩ := loop_left g i hc
  obtain ⟨d1, _, _⟩ := debounceStep_reject (leftView g) (millis i.now) i.leftLow hacc
  rw [h1, h3 hcc, h4, hres, d1]
  simp [resolveStep, hres]

/-- With no press pending and none accepted in the run, the run sends no
primary click and toggles no scroll mode. -/
theorem run_idle (L : List Input) : ∀ (g : Globals),
    (∀ i ∈ L, i.connected = true ∧ i.connectedAtClick = true) →
    (leftView g).clickCount = 0 →
    leftPressTimes g L = [] →
    clicks MouseButton.MOUSE_LEFT (run g L).2 = 0 ∧ scrollToggles (run g L).2 = 0 := by
  induction L with
  | nil => intro g _ _ _; simp [run, clicks, scrollToggles]
  | cons i is ih =>
    intro g hconn hcnt hno
    obtain ⟨hc, hcc⟩ := hconn i (List.mem_cons_self _ _)
    have hacc : accepts (leftView g) (millis i.now) i.leftLow = false := by
      by_contra hne
      rw [leftPressTimes_cons_accept g i is hc (by simpa using hne)] at hno
      simp at hno
    rw [leftPressTimes_cons_reject g i is hc hacc] at hno
    obtain ⟨d1, _, _⟩ := debounceStep_reject (leftView g) (millis i.now) i.leftLow hacc
    have hres : resolves (debounceStep (leftView g) (millis i.now) i.leftLow) (millis i.now)
        = false := by
      simp [resolves, d1, hcnt]
    obtain ⟨e1, _, e3, e4⟩ := loop_left_idle g i hc hcc hacc hres
    obtain ⟨r1, r2⟩ := ih (loop g i).1 (fun x hx => hconn x (List.mem_cons_of_mem _ hx))
      (by rw [e1, hcnt]) hno
    obtain ⟨c1, c2⟩ := run_cons_events g i is
    rw [c1, c2, e3, e4, r1, r2]
    exact ⟨rfl, rfl⟩

/-- The last pass of a run with at least two passes is the last pass of its
tail. -/
theorem getLast?_cons_of_ne_nil (i : Input) (is : List Input) (h : is ≠ []) :
    (i :: is).getLast? = is.getLast? := by
  cases is with
  | nil => exact absurd rfl h
  | cons j js => simp [List.getLast?_cons_cons]

/-- A burst in progress: `c ≥ 1` presses are pending in a window opened at true
time `t0`, the remaining passes lie between `t0` and `t0 + 2 ^ 32`, every press
they accept comes at most `MULTI_CLICK_TIMEOUT` after `t0`, and the last pass
reads the pin released more than `MULTI_CLICK_TIMEOUT` after `t0`.  Then the
run sends exactly the primary clicks and scroll toggles of the count `c` plus
the number of presses it accepts. -/
theorem run_burst (L : List Input) : ∀ (g : Globals) (c : Int) (later : List Nat) (t0 : Nat),
    (∀ i ∈ L, i.connected = true ∧ i.connectedAtClick = true) →
    (leftView g).clickCount = c → 0 < c →
    (leftView g).firstClickTime = millis t0 →
    (∀ i ∈ L, t0 ≤ i.now ∧ i.now < t0 + ULONG_MOD) →
    TimeOrdered L →
    leftPressTimes g L = later →
    (∀ t ∈ later, t ≤ t0 + MULTI_CLICK_TIMEOUT) →
    (∃ last, L.getLast? = some last ∧ last.leftLow = false
      ∧ t0 + MULTI_CLICK_TIMEOUT < last.now) →
    clicks MouseButton.MOUSE_LEFT (run g L).2 = dispatchClicks (c + later.length)
    ∧ scrollToggles (run g L).2 = dispatchToggles (c + later.length) := by
  induction L with
  | nil =>
    intro g c later t0 _ _ _ _ _ _ _ _ hend
    obtain ⟨last, h, _⟩ := hend
    simp at h
  | cons i is ih =>
    intro g c later t0 hconn hcnt hpos hfirst hrange hord hedges hwin hend
    obtain ⟨hc, hcc⟩ := hconn i (List.mem_cons_self _ _)
    obtain ⟨hlo, hhi⟩ := hrange i (List.mem_cons_self _ _)
    have hel : elapsed (millis i.now) (leftView g).firstClickTime = i.now - t0 := by
      rw [hfirst]
      exact elapsed_millis_lt t0 i.now hlo hhi
    have hconn' : ∀ x ∈ is, x.connected = true ∧ x.connectedAtClick = true :=
      fun x hx => hconn x (List.mem_cons_of_mem _ hx)
    have hrange' : ∀ x ∈ is, t0 ≤ x.now ∧ x.now < t0 + ULONG_MOD :=
      fun x hx => hrange x (List.mem_cons_of_mem _ hx)
    have hord' : TimeOrdered is := (List.pairwise_cons.mp hord).2
    have hafter : ∀ x ∈ is, i.now ≤ x.now := (List.pairwise_cons.mp hord).1
    obtain ⟨c1, c2⟩ := run_cons_events g i is
    obtain ⟨last, hlast, hlow, hsil⟩ := hend
    cases hacc : accepts (leftView g) (millis i.now) i.leftLow
    · -- no press accepted by this pass
      rw [leftPressTimes_cons_reject g i is hc hacc] at hedges
      obtain ⟨d1, d2, d3⟩ := debounceStep_reject (leftView g) (millis i.now) i.leftLow hacc
      cases hres : resolves (debounceStep (leftView g) (millis i.now) i.leftLow) (millis i.now)
      · -- still pending
        obtain ⟨e1, e2, e3, e4⟩ := loop_left_idle g i hc hcc hacc hres
        have hne : is ≠ [] := by
          rintro rfl
          simp only [List.getLast?_singleton, Option.some.injEq] at hlast
          subst hlast
          have hp := d3 hlow
          have : resolves (debounceStep (leftView g) (millis i.now) i.leftLow) (millis i.now)
              = true := by
            unfold resolves
            rw [hp, d2, d1, hel, hcnt]
            have h400 : i.now - t0 > MULTI_CLICK_TIMEOUT := by omega
            simp [h400, hpos]
          rw [this] at hres
          exact Bool.noConfusion hres
        rw [getLast?_cons_of_ne_nil i is hne] at hlast
        obtain ⟨r1, r2⟩ := ih (loop g i).1 c later t0 hconn' (by rw [e1, hcnt]) hpos
          (by rw [e2, hfirst]) hrange' hord' hedges hwin ⟨last, hlast, hlow, hsil⟩
        rw [c1, c2, e3, e4, r1, r2]
        exact ⟨by simp, by simp⟩
      · -- the pending count is resolved
        obtain ⟨e1, e3, e4⟩ := loop_left_resolve g i hc hcc hacc hres
        have hlate : t0 + MULTI_CLICK_TIMEOUT < i.now := by
          unfold resolves at hres
          rw [d2, hel] at hres
          simp only [Bool.and_eq_true, decide_eq_true_eq] at hres
          omega
        have hnil : later = [] := by
          cases later with
          | nil => rfl
          | cons t l =>
            exfalso
            have ht : t ∈ t :: l := List.mem_cons_self _ _
            obtain ⟨x, hx, hxt⟩ := leftPressTimes_mem _ is t (by rw [hedges]; exact ht)
            have h1 := hafter x hx
            have h2 := hwin t ht
            omega
        subst hnil
        obtain ⟨r1, r2⟩ := run_idle is (loop g i).1 hconn' e1 hedges
        rw [c1, c2, e3, e4, r1, r2, hcnt]
        exact ⟨by simp, by simp⟩
    · -- a press is accepted by this pass
      rw [leftPressTimes_cons_accept g i is hc hacc] at hedges
      obtain ⟨e1, e3, e4⟩ := loop_left_accept g i hc hcc hacc
      have hin : i.now ≤ t0 + MULTI_CLICK_TIMEOUT :=
        hwin i.now (by rw [← hedges]; exact List.mem_cons_self _ _)
      have hnot : ¬ (elapsed (millis i.now) (leftView g).firstClickTime > MULTI_CLICK_TIMEOUT) := by
        rw [hel]
        omega
      rw [if_neg hnot] at e1
      have hne : is ≠ [] := by
        rintro rfl
        simp only [List.getLast?_singleton, Option.some.injEq] at hlast
        subst hlast
        unfold accepts at hacc
        rw [hlow] at hacc
        simp at hacc
      rw [getLast?_cons_of_ne_nil i is hne] at hlast
      obtain ⟨r1, r2⟩ := ih (loop g i).1 (c + 1) (leftPressTimes (loop g i).1 is) t0 hconn'
        (by rw [e1, hcnt]) (by omega) (by rw [e1, hfirst]) hrange' hord' rfl
        (fun t ht => hwin t (by rw [← hedges]; exact List.mem_cons_of_mem _ ht))
        ⟨last, hlast, hlow, hsil⟩
      rw [c1, c2, e3, e4, r1, r2, ← hedges]
      have hcast : c + 1 + ((leftPressTimes (loop g i).1 is).length : Int)
          = c + ((i.now :: leftPressTimes (loop g i).1 is).length : Int) := by
        simp only [List.length_cons]
        push_cast
        ring
      rw [hcast]
      exact ⟨by simp, by simp⟩

/-- Before the burst: no press is pending, the first press the run accepts (at
true time `t0`) opens a new window, the later ones come at most
`MULTI_CLICK_TIMEOUT` after `t0`, and the last pass reads the pin released more
than `MULTI_CLICK_TIMEOUT` after `t0`.  Then the run sends exactly the primary
clicks and scroll toggles of the number of presses it accepts. -/
theorem run_from_rest (L : List Input) : ∀ (g : Globals) (t0 : Nat) (later : List Nat),
    (∀ i ∈ L, i.connected = true ∧ i.connectedAtClick = true) →
    (leftView g).clickCount = 0 →
    (∀ i ∈ L, i.now < t0 + ULONG_MOD) →
    TimeOrdered L →
    leftPressTimes g L = t0 :: later →
    elapsed (millis t0) (leftView g).firstClickTime > MULTI_CLICK_TIMEOUT →
    (∀ t ∈ later, t ≤ t0 + MULTI_CLICK_TIMEOUT) →
    (∃ last, L.getLast? = some last ∧ last.leftLow = false
      ∧ t0 + MULTI_CLICK_TIMEOUT < last.now) →
    clicks MouseButton.MOUSE_LEFT (run g L).2 = dispatchClicks (1 + later.length)
    ∧ scrollToggles (run g L).2 = dispatchToggles (1 + later.length) := by
  induction L with
  | nil =>
    intro g t0 later _ _ _ _ hedges _ _ _
    simp [leftPressTimes] at hedges
  | cons i is ih =>
    intro g t0 later hconn hcnt hhi hord hedges hfresh hwin hend
    obtain ⟨hc, hcc⟩ := hconn i (List.mem_cons_self _ _)
    have hconn' : ∀ x ∈ is, x.connected = true ∧ x.connectedAtClick = true :=
      fun x hx => hconn x (List.mem_cons_of_mem _ hx)
    have hhi' : ∀ x ∈ is, x.now < t0 + ULONG_MOD :=
      fun x hx => hhi x (List.mem_cons_of_mem _ hx)
    have hord' : TimeOrdered is := (List.pairwise_cons.mp hord).2
    have hafter : ∀ x ∈ is, i.now ≤ x.now := (List.pairwise_cons.mp hord).1
    obtain ⟨c1, c2⟩ := run_cons_events g i is
    obtain ⟨last, hlast, hlow, hsil⟩ := hend
    cases hacc : accepts (leftView g) (millis i.now) i.leftLow
    · -- not yet the first press
      rw [leftPressTimes_cons_reject g i is hc hacc] at hedges
      obtain ⟨d1, _, _⟩ := debounceStep_reject (leftView g) (millis i.now) i.leftLow hacc
      have hres : resolves (debounceStep (leftView g) (millis i.now) i.leftLow) (millis i.now)
          = false := by
        simp [resolves, d1, hcnt]
      obtain ⟨e1, e2, e3, e4⟩ := loop_left_idle g i hc hcc hacc hres
      have hne : is ≠ [] := by
        rintro rfl
        simp [leftPressTimes] at hedges
      rw [getLast?_cons_of_ne_nil i is hne] at hlast
      obtain ⟨r1, r2⟩ := ih (loop g i).1 t0 later hconn' (by rw [e1, hcnt]) hhi' hord' hedges
        (by rw [e2]; exact hfresh) hwin ⟨last, hlast, hlow, hsil⟩
      rw [c1, c2, e3, e4, r1, r2]
      exact ⟨by simp, by simp⟩
    · -- the first press of the burst
      rw [leftPressTimes_cons_accept g i is hc hacc] at hedges
      obtain ⟨ht0, hrest⟩ := List.cons.inj hedges
      obtain ⟨e1, e3, e4⟩ := loop_left_accept g i hc hcc hacc
      rw [ht0, if_pos hfresh] at e1
      have hne : is ≠ [] := by
        rintro rfl
        simp only [List.getLast?_singleton, Option.some.injEq] at hlast
        subst hlast
        unfold accepts at hacc
        rw [hlow] at hacc
        simp at hacc
      rw [getLast?_cons_of_ne_nil i is hne] at hlast
      obtain ⟨r1, r2⟩ := run_burst is (loop g i).1 1 later t0 hconn' (by rw [e1]) (by omega)
        (by rw [e1]) (fun x hx => ⟨by rw [← ht0]; exact hafter x hx, hhi' x hx⟩) hord' hrest hwin
        ⟨last, hlast, hlow, hsil⟩
      rw [c1, c2, e3, e4, r1, r2]
      exact ⟨by simp, by simp⟩

/-- Claim C1 (amended): Start in a state with the left button released and
`leftClickCount = 0` and take any run of connected passes with non-decreasing
times that ends with `last`.  Suppose the run accepts `N` left press edges, the
first at true time `t0` opening a new multi-click window (more than
`MULTI_CLICK_TIMEOUT` elapsed, as the code measures it, since the stored
`leftFirstClickTime`) and each later one at most `MULTI_CLICK_TIMEOUT` (400 ms)
after `t0`, and suppose the last pass reads the button released more than
400 ms, and less than `2 ^ 32` ms, after `t0`.  Then the whole run sends exactly
one primary click and no scroll toggle for `N = 1`, exactly two primary clicks
and no scroll toggle for `N = 2`, and no primary click and exactly one scroll
toggle for `N = 3`. -/
theorem click_resolution (g : Globals) (ins : List Input) (last : Input) (t0 : Nat)
    (later : List Nat)
    (_hrel : g.systemState.leftPressed = false)
    (hcnt : g.systemState.leftClickCount = 0)
    (hconn : ∀ i ∈ ins ++ [last], i.connected = true ∧ i.connectedAtClick = true)
    (hord : TimeOrdered (ins ++ [last]))
    (hedges : leftPressTimes g (ins ++ [last]) = t0 :: later)
    (hfresh : elapsed (millis t0) g.systemState.leftFirstClickTime > MULTI_CLICK_TIMEOUT)
    (hwin : ∀ t ∈ later, t ≤ t0 + MULTI_CLICK_TIMEOUT)
    (hlow : last.leftLow = false)
    (hsil : t0 + MULTI_CLICK_TIMEOUT < last.now)
    (hspan : last.now < t0 + ULONG_MOD) :
    (later.length + 1 = 1 →
      clicks MouseButton.MOUSE_LEFT (run g (ins ++ [last])).2 = 1
      ∧ scrollToggles (run g (ins ++ [last])).2 = 0)
    ∧ (later.length + 1 = 2 →
      clicks MouseButton.MOUSE_LEFT (run g (ins ++ [last])).2 = 2
      ∧ scrollToggles (run g (ins ++ [last])).2 = 0)
    ∧ (later.length + 1 = 3 →
      clicks MouseButton.MOUSE_LEFT (run g (ins ++ [last])).2 = 0
      ∧ scrollToggles (run g (ins ++ [last])).2 = 1) := by
  have hhi : ∀ i ∈ ins ++ [last], i.now < t0 + ULONG_MOD := by
    intro i hi
    rcases List.mem_append.mp hi with h | h
    · have := (List.pairwise_append.mp hord).2.2 i h last (by simp)
      omega
    · rw [List.mem_singleton.mp h]
      exact hspan
  obtain ⟨r1, r2⟩ := run_from_rest (ins ++ [last]) g t0 later hconn hcnt hhi hord hedges hfresh
    hwin ⟨last, by simp, hlow, hsil⟩
  rw [r1, r2]
  refine ⟨fun h => ?_, fun h => ?_, fun h => ?_⟩
  · have : later.length = 0 := by omega
    rw [this]; decide
  · have : later.length = 1 := by omega
    rw [this]; decide
  · have : later.length = 2 := by omega
    rw [this]; decide

set_option maxRecDepth 100000 in
/-- Witness for C1 (amended): from start-up, presses at 1000, 1200 and 1390
followed by silence until 2100 give no primary click and one scroll toggle. -/
theorem click_resolution_witness :
    leftPressTimes initialState (tripleRun ++ [tickAt 2100 false false]) = [1000, 1200, 1390]
    ∧ clicks MouseButton.MOUSE_LEFT
        (run initialState (tripleRun ++ [tickAt 2100 false false])).2 = 0
    ∧ scrollToggles (run initialState (tripleRun ++ [tickAt 2100 false false])).2 = 1 :=
  ⟨by decide,
   (click_resolution initialState tripleRun (tickAt 2100 false false) 1000 [1200, 1390]
      rfl rfl (by decide) (by unfold TimeOrdered; decide) (by decide) (by decide) (by decide)
      rfl (by decide) (by decide)).2.2 rfl⟩

set_option maxRecDepth 100000 in
/-- Counterexample to C1 as stated, for `N = 3`.  From start-up (button
released, count 0) the run `slowTripleRun` of connected passes with
non-decreasing times accepts exactly three left presses, at 1000, 1300 and 1600,
each less than 400 ms after the previous one, and ends released at 2100, more
than 400 ms after the last press; it sends three primary clicks and toggles no
scroll mode (the pass at 1450 already resolves the first two presses, because
the window is measured from the first press). -/
theorem click_resolution_three_fails :
    initialState.systemState.leftPressed = false
    ∧ initialState.systemState.leftClickCount = 0
    ∧ (∀ i ∈ slowTripleRun, i.connected = true ∧ i.connectedAtClick = true)
    ∧ TimeOrdered slowTripleRun
    ∧ leftPressTimes initialState slowTripleRun = [1000, 1300, 1600]
    ∧ slowTripleRun.getLast? = some (tickAt 2100 false false)
    ∧ clicks MouseButton.MOUSE_LEFT (run initialState slowTripleRun).2 = 3
    ∧ scrollToggles (run initialState slowTripleRun).2 = 0
    ∧ (run initialState slowTripleRun).1.systemState.scrollMode = false := by
  refine ⟨rfl, rfl, by decide, by unfold TimeOrdered; decide, by decide, by decide, by decide,
    by decide, by decide⟩

set_option maxRecDepth 100000 in
/-- Why the amended C1 asks the first press to open a new window.  After a
resolution the code stores 0 in `leftFirstClickTime`; when the clock itself is
within 400 ms of 0 (here: true times just after a wrap of the 32-bit counter),
the first press does not restart the window.  From start-up values, presses at
clock values 100 and 450 with no pass between 110 and 450 give one primary
click only: the second press finds the window expired and clears the count of
the first. -/
theorem stale_window_drops_press :
    leftPressTimes initialState
        [tickAt (ULONG_MOD + 100) true false, tickAt (ULONG_MOD + 110) false false,
         tickAt (ULONG_MOD + 450) true false, tickAt (ULONG_MOD + 460) false false,
         tickAt (ULONG_MOD + 900) false false]
      = [ULONG_MOD + 100, ULONG_MOD + 450]
    ∧ clicks MouseButton.MOUSE_LEFT (run initialState
        [tickAt (ULONG_MOD + 100) true false, tickAt (ULONG_MOD + 110) false false,
         tickAt (ULONG_MOD + 450) true false, tickAt (ULONG_MOD + 460) false false,
         tickAt (ULONG_MOD + 900) false false]).2 = 1 := by
  refine ⟨by decide, by decide⟩

/-! ## Disconnected passes -/

/-- A run of passes that all find the peer disconnected returns the state it
started in. -/
theorem run_disconnected (ins : List Input) (g : Globals)
    (h : ∀ i ∈ ins, i.connected = false) : (run g ins).1 = g := by
  induction ins generalizing g with
  | nil => rfl
  | cons i is ih =>
    have hi := loop_disconnected g i (h i (List.mem_cons_self _ _))
    simp only [run, hi]
    exact ih g (fun x hx => h x (List.mem_cons_of_mem _ hx))

/-- Claim C11: A pass of `loop` taken while the peer is not connected runs none
of the components: whatever the pin levels and the sample, its only event is
the idle `delay(100)` (no move, no click, no toggle) and the whole state is
unchanged; hence any number of disconnected passes leaves the state, and in
particular the click counts of a pending burst, as they were. -/
theorem disconnected_tick (g : Globals) (i : Input) (hc : i.connected = false) :
    (loop g i).1 = g
    ∧ (loop g i).2 = [Event.delay 100]
    ∧ moveList (loop g i).2 = []
    ∧ clickList (loop g i).2 = []
    ∧ gestures (loop g i).2 = []
    ∧ (∀ ins : List Input, (∀ j ∈ ins, j.connected = false) →
        (run g ins).1 = g
        ∧ (run g ins).1.systemState.leftClickCount = g.systemState.leftClickCount
        ∧ (run g ins).1.systemState.rightClickCount = g.systemState.rightClickCount) := by
  rw [loop_disconnected g i hc]
  refine ⟨rfl, rfl, rfl, rfl, rfl, fun ins h => ?_⟩
  rw [run_disconnected ins g h]
  exact ⟨rfl, rfl, rfl⟩

/-- Witness for C11: with one left press pending, a disconnected pass at time
1500 with both pins pressed changes nothing. -/
theorem disconnected_tick_witness :
    (offlineTick 1500 true true).connected = false
    ∧ (loop (leftPending 1) (offlineTick 1500 true true)).1 = leftPending 1 :=
  ⟨rfl, (disconnected_tick (leftPending 1) (offlineTick 1500 true true) rfl).1⟩

/-! ## Scroll mode -/

/-- The routine `processIMU` never writes `scrollX`. -/
theorem processIMU_scrollX (g : Globals) (m : Motion6) :
    (processIMU g m).1.scrollX = g.scrollX := by
  cases hf : g.systemState.cursorFrozen
  · cases hs : g.systemState.scrollMode
    · rw [processIMU_cursor g m hf hs]
    · rw [processIMU_scroll g m hf hs]
  · rw [processIMU_frozen g m hf]

/-- Claim C15: On a non-frozen call of `processIMU` in scroll mode, over exact
rationals, `rawY` is `0.0022 * gy` for the reading `gy` after the deadzone and
`scrollY` becomes `0.4 * (0.15 * rawY) + 0.6 * scrollY`; when the new `scrollY`
has magnitude above `SCROLL_THRESHOLD` (0.2) the call sends exactly one move,
with vertical wheel amount `-scrollY` and everything else 0, and otherwise it
sends nothing at all; and `processIMU` never changes `scrollX`, in any mode. -/
theorem processIMU_scroll_step (g : Globals) (m : Motion6) :
    (g.systemState.cursorFrozen = false → g.systemState.scrollMode = true →
      (processIMU g m).1.rawY = (22 / 10000) * (deadzone m.gy : ℚ)
      ∧ (processIMU g m).1.scrollY
          = (4 / 10) * ((15 / 100) * (processIMU g m).1.rawY) + (6 / 10) * g.scrollY
      ∧ (SCROLL_THRESHOLD < |(processIMU g m).1.scrollY| →
          (processIMU g m).2 = [Event.move 0 0 (-(processIMU g m).1.scrollY) 0])
      ∧ (|(processIMU g m).1.scrollY| ≤ SCROLL_THRESHOLD → (processIMU g m).2 = []))
    ∧ (processIMU g m).1.scrollX = g.scrollX := by
  refine ⟨fun hf hs => ?_, processIMU_scrollX g m⟩
  rw [processIMU_scroll g m hf hs]
  refine ⟨?_, ?_, fun h => ?_, fun h => ?_⟩
  · simp only [GYRO_SENSITIVITY, Y_AXIS_CORRECTION]
    push_cast
    ring
  · simp only [SCROLL_SMOOTHING, SCROLL_SENSITIVITY]
    ring
  · exact if_pos h
  · exact if_neg (not_lt.mpr h)

/-- Witness for C15: in scroll mode with `scrollY = 1`, the reading 1000 gives
the new value `0.4 * (0.15 * 2.2) + 0.6 = 0.732`, above the threshold, and one
move with wheel amount `-0.732` is sent. -/
theorem processIMU_scroll_step_witness :
    (processIMU (scrollingState 1) (gyroSample 1000)).1.scrollY = 732 / 1000
    ∧ (processIMU (scrollingState 1) (gyroSample 1000)).2
        = [Event.move 0 0 (-(processIMU (scrollingState 1) (gyroSample 1000)).1.scrollY) 0] := by
  have h := (processIMU_scroll_step (scrollingState 1) (gyroSample 1000)).1 rfl rfl
  have hd : deadzone (gyroSample 1000).gy = 1000 := by decide
  have hy : (processIMU (scrollingState 1) (gyroSample 1000)).1.scrollY = 732 / 1000 := by
    rw [h.2.1, h.1, hd]
    simp only [scrollingState]
    norm_num
  refine ⟨hy, h.2.2.1 ?_⟩
  rw [hy]
  simp only [SCROLL_THRESHOLD]
  norm_num [abs_of_pos]

/-- Claim C16 (amended): For every prior state, `toggleScrollMode` leaves
`scrollX` and `scrollY` at 0 and leaves `filteredX` and `filteredY` exactly as
they were: only the scroll accumulators are reset on a scroll-mode transition. -/
theorem toggleScrollMode_filters (g : Globals) :
    (toggleScrollMode g).1.scrollX = 0
    ∧ (toggleScrollMode g).1.scrollY = 0
    ∧ (toggleScrollMode g).1.filteredX = g.filteredX
    ∧ (toggleScrollMode g).1.filteredY = g.filteredY := by
  simp [toggleScrollMode]

/-- Counterexample to C16 as stated: from the cursor-mode state with
`filteredX = 3` and `filteredY = -2`, `toggleScrollMode` enters scroll mode and
both cursor accumulators keep their non-zero values. -/
theorem toggleScrollMode_keeps_cursor_filter :
    (toggleScrollMode (movingState 3 (-2))).1.systemState.scrollMode = true
    ∧ (toggleScrollMode (movingState 3 (-2))).1.filteredX = 3
    ∧ (toggleScrollMode (movingState 3 (-2))).1.filteredY = -2
    ∧ (toggleScrollMode (movingState 3 (-2))).1.filteredX ≠ 0
    ∧ (toggleScrollMode (movingState 3 (-2))).1.filteredY ≠ 0 := by
  simp [toggleScrollMode, movingState, initialState]

/-! ## Blocking delays -/

/-- The delays of a concatenation. -/
theorem delayList_append (xs ys : List Event) :
    delayList (xs ++ ys) = delayList xs ++ delayList ys := by
  induction xs with
  | nil => rfl
  | cons e es ih => cases e <;> simp [delayList, ih]

/-- The routine `processIMU` never calls `delay`. -/
theorem delayList_processIMU (g : Globals) (m : Motion6) :
    delayList (processIMU g m).2 = [] := by
  cases hf : g.systemState.cursorFrozen
  · cases hs : g.systemState.scrollMode
    · rw [processIMU_cursor g m hf hs]; rfl
    · rw [processIMU_scroll g m hf hs]
      split_ifs <;> rfl
  · rw [processIMU_frozen g m hf]; rfl

/-- Of the button and click routines only `handleLeftClicks` calls `delay`:
once, for 100 ms, when it resolves a count of 2 with the peer connected. -/
theorem delayList_buttons (g : Globals) (ms : Nat) (low c : Bool) :
    delayList (processLeftButton g ms low).2 = []
    ∧ delayList (processRightButton g ms low).2 = []
    ∧ delayList (handleLeftClicks g ms c).2
        = (if resolves (leftView g) ms && decide ((leftView g).clickCount = 2) && c
            then [100] else [])
    ∧ delayList (handleRightClicks g ms).2 = [] := by
  refine ⟨?_, ?_, ?_, ?_⟩
  · unfold processLeftButton
    dsimp only
    split_ifs <;> rfl
  · unfold processRightButton
    dsimp only
    split_ifs <;> rfl
  · have hr : leftResolves g ms = resolves (leftView g) ms := rfl
    unfold handleLeftClicks handleLeftSingleClick handleLeftDoubleClick toggleScrollMode
    rw [hr]
    cases hres : resolves (leftView g) ms
    · simp [delayList]
    · have hv : (leftView g).clickCount = g.systemState.leftClickCount := rfl
      rw [hv]
      dsimp only
      cases c <;> split_ifs <;> simp_all [delayList]
  · unfold handleRightClicks toggleCursorFreeze
    dsimp only
    split_ifs <;> rfl

/-- Claim C18 (amended): With blocking delays recorded as events, a connected
pass of `loop` performs the fixed 8 ms delay at its end and no other delay,
except when it resolves a left count of 2 with the peer connected: that pass
first blocks for 100 ms between the two clicks.  Dispatching a left count of 1
or 3, any other left count, or any right count adds no delay. -/
theorem loop_delays (g : Globals) (i : Input) (hc : i.connected = true) :
    delayList (loop g i).2
      = (if resolves (debounceStep (leftView g) (millis i.now) i.leftLow) (millis i.now)
            && decide ((debounceStep (leftView g) (millis i.now) i.leftLow).clickCount = 2)
            && i.connectedAtClick
          then [100, 8] else [8]) := by
  have a := views_processIMU g i.sample
  have b := processLeftButton_view (processIMU g i.sample).1 (millis i.now) i.leftLow
  have c := processRightButton_view
    (processLeftButton (processIMU g i.sample).1 (millis i.now) i.leftLow).1
    (millis i.now) i.rightLow
  have d := (delayList_buttons
    (processRightButton (processLeftButton (processIMU g i.sample).1 (millis i.now)
      i.leftLow).1 (millis i.now) i.rightLow).1 (millis i.now) true i.connectedAtClick).2.2.1
  rw [c.2.1, b.1, a.1] at d
  simp only [loop, hc, Bool.not_true, Bool.false_eq_true, if_false, delayList_append]
  rw [delayList_processIMU, (delayList_buttons _ _ _ true).1, (delayList_buttons _ _ _ true).2.1,
    d, (delayList_buttons _ _ true true).2.2.2]
  split_ifs <;> rfl

/-- Witness for C18 (amended): with one left press pending, the connected pass
at time 1500 resolves it as a single click and only the 8 ms delay occurs. -/
theorem loop_delays_witness :
    (tickAt 1500 false false).connected = true
    ∧ delayList (loop (leftPending 1) (tickAt 1500 false false)).2 = [8] :=
  ⟨rfl, (loop_delays (leftPending 1) (tickAt 1500 false false) rfl).trans (by decide)⟩

/-- Counterexample to C18 as stated: with two left presses pending, the
connected pass at time 1500 dispatches the double click and blocks for 100 ms
inside `handleLeftDoubleClick` before the 8 ms delay at the end of the pass. -/
theorem double_click_blocks :
    (tickAt 1500 false false).connected = true
    ∧ clickList (loop (leftPending 2) (tickAt 1500 false false)).2
        = [MouseButton.MOUSE_LEFT, MouseButton.MOUSE_LEFT]
    ∧ delayList (loop (leftPending 2) (tickAt 1500 false false)).2 = [100, 8]
    ∧ delayed (loop (leftPending 2) (tickAt 1500 false false)).2 = 108 := by
  refine ⟨rfl, by decide, by decide, by decide⟩

/-! ## When a count is handed to the dispatcher -/

/-- After both debouncer steps of a connected pass, each button's view is the
`debounceStep` of its view at the start of the pass. -/
theorem afterDebounce_view (b : MouseButton) (g : Globals) (i : Input) :
    buttonView b (afterDebounce g i)
      = debounceStep (buttonView b g) (millis i.now) (rawLow b i) := by
  have a := views_processIMU g i.sample
  have l := processLeftButton_view (processIMU g i.sample).1 (millis i.now) i.leftLow
  have r := processRightButton_view
    (processLeftButton (processIMU g i.sample).1 (millis i.now) i.leftLow).1
    (millis i.now) i.rightLow
  cases b
  · show leftView (afterDebounce g i) = _
    unfold afterDebounce
    rw [r.2.1, l.1, a.1]
    rfl
  · show rightView (afterDebounce g i) = _
    unfold afterDebounce
    rw [r.1, l.2.1, a.2]
    rfl

/-- The view of button `b` at the end of a connected pass is the `resolveStep`,
at the clock value its handler reads, of the view after the debouncer step. -/
theorem loop_view (b : MouseButton) (g : Globals) (i : Input) (hc : i.connected = true) :
    buttonView b (loop g i).1
      = resolveStep (buttonView b (afterDebounce g i)) (handlerClock b g i) := by
  have hl : (loop g i).1
      = (handleRightClicks (handleLeftClicks (afterDebounce g i) (millis i.now)
          i.connectedAtClick).1 (handlerClock MouseButton.MOUSE_RIGHT g i)).1 := by
    simp only [loop, hc, Bool.not_true, Bool.false_eq_true, if_false]
    rfl
  have d := handleLeftClicks_view (afterDebounce g i) (millis i.now) i.connectedAtClick
  have e := handleRightClicks_view (handleLeftClicks (afterDebounce g i) (millis i.now)
    i.connectedAtClick).1 (handlerClock MouseButton.MOUSE_RIGHT g i)
  rw [hl]
  cases b
  · show leftView _ = resolveStep (leftView _) _
    rw [e.2.1, d.1]
    rfl
  · show rightView _ = resolveStep (rightView _) _
    rw [e.1, d.2.1]

/-- The count handed over for button `b`, read off the view after the debouncer
step. -/
theorem handedOver_eq (b : MouseButton) (g : Globals) (i : Input) :
    handedOver b g i
      = (if resolves (buttonView b (afterDebounce g i)) (handlerClock b g i)
          then some (buttonView b (afterDebounce g i)).clickCount else none) := by
  cases b
  · rfl
  · have d := (handleLeftClicks_view (afterDebounce g i) (millis i.now)
      i.connectedAtClick).2.1
    show rightDispatched _ _ = _
    unfold rightDispatched
    have hr : ∀ h ms, rightResolves h ms = resolves (rightView h) ms := fun _ _ => rfl
    have hcnt : ∀ h : Globals, h.systemState.rightClickCount = (rightView h).clickCount :=
      fun _ => rfl
    rw [hr, hcnt, d]
    rfl

/-- Claim C13: For each button `b` and each connected pass of `loop`, with `v`
the button's fields after that pass's debouncer step and `now` the clock value
its handler reads: a count is handed to the dispatcher if and only if `v` is not
pressed, `now - v.firstClickTime > 400` and `v.clickCount > 0`; the count handed
over is `v.clickCount` and the click count is 0 after the pass (and unchanged
when nothing is handed over); for the left button the clicks and scroll toggles
of the pass are those of the count handed over; and a pass that accepted a press
edge of `b` hands nothing over for `b`. -/
theorem dispatch_iff (b : MouseButton) (g : Globals) (i : Input) (hc : i.connected = true) :
    buttonView b (afterDebounce g i)
      = debounceStep (buttonView b g) (millis i.now) (rawLow b i)
    ∧ ((handedOver b g i).isSome = true ↔
        ((buttonView b (afterDebounce g i)).pressed = false
        ∧ elapsed (handlerClock b g i) (buttonView b (afterDebounce g i)).firstClickTime
            > MULTI_CLICK_TIMEOUT
        ∧ (buttonView b (afterDebounce g i)).clickCount > 0))
    ∧ (∀ c, handedOver b g i = some c →
        c = (buttonView b (afterDebounce g i)).clickCount
        ∧ (buttonView b (loop g i).1).clickCount = 0)
    ∧ (handedOver b g i = none →
        (buttonView b (loop g i).1).clickCount = (buttonView b (afterDebounce g i)).clickCount)
    ∧ (b = MouseButton.MOUSE_LEFT → i.connectedAtClick = true →
        clicks MouseButton.MOUSE_LEFT (loop g i).2 = ((handedOver b g i).map dispatchClicks).getD 0
        ∧ scrollToggles (loop g i).2 = ((handedOver b g i).map dispatchToggles).getD 0)
    ∧ (presses b (loop g i).2 = 1 → handedOver b g i = none) := by
  have hv := afterDebounce_view b g i
  have hh := handedOver_eq b g i
  have hl := loop_view b g i hc
  refine ⟨hv, ?_, ?_, ?_, ?_, ?_⟩
  · rw [hh]
    by_cases h : resolves (buttonView b (afterDebounce g i)) (handlerClock b g i) = true
    · rw [if_pos h]
      simp only [Option.isSome_some, true_iff]
      unfold resolves at h
      simp only [Bool.and_eq_true, Bool.not_eq_true', decide_eq_true_eq] at h
      exact ⟨h.1.1, h.1.2, h.2⟩
    · rw [if_neg h]
      simp only [Option.isSome_none, Bool.false_eq_true, false_iff]
      intro hcon
      apply h
      unfold resolves
      simp only [Bool.and_eq_true, Bool.not_eq_true', decide_eq_true_eq]
      exact ⟨⟨hcon.1, hcon.2.1⟩, hcon.2.2⟩
  · intro c hcv
    rw [hh] at hcv
    by_cases h : resolves (buttonView b (afterDebounce g i)) (handlerClock b g i) = true
    · rw [if_pos h] at hcv
      refine ⟨(Option.some.inj hcv).symm, ?_⟩
      rw [hl]
      simp [resolveStep, h]
    · rw [if_neg h] at hcv
      exact absurd hcv (by simp)
  · intro hn
    rw [hh] at hn
    by_cases h : resolves (buttonView b (afterDebounce g i)) (handlerClock b g i) = true
    · rw [if_pos h] at hn
      exact absurd hn (by simp)
    · rw [hl]
      simp [resolveStep, h]
  · intro hb hcc
    subst hb
    obtain ⟨_, _, h3, h4⟩ := loop_left g i hc
    have hv' : buttonView MouseButton.MOUSE_LEFT (afterDebounce g i)
        = debounceStep (leftView g) (millis i.now) i.leftLow := hv
    have hk : handlerClock MouseButton.MOUSE_LEFT g i = millis i.now := rfl
    rw [hh, h3 hcc, h4, hv', hk]
    split_ifs <;> simp
  · intro hp
    have hacc := (loop_button b g i).1
    rw [hp, hc] at hacc
    have ha : accepts (buttonView b g) (millis i.now) (rawLow b i) = true := by
      by_contra hne
      simp only [Bool.true_and] at hacc
      rw [if_neg hne] at hacc
      omega
    have hpr : (buttonView b (afterDebounce g i)).pressed = true := by
      rw [hv]
      unfold debounceStep
      rw [if_pos ha]
      split_ifs <;> rfl
    rw [hh]
    simp [resolves, hpr]

/-- Witness for C13: with one left press pending since 1000, the connected pass
at 1500 hands the count 1 to the dispatcher and leaves the count at 0. -/
theorem dispatch_iff_witness :
    (tickAt 1500 false false).connected = true
    ∧ handedOver MouseButton.MOUSE_LEFT (leftPending 1) (tickAt 1500 false false) = some 1
    ∧ (buttonView MouseButton.MOUSE_LEFT
        (loop (leftPending 1) (tickAt 1500 false false)).1).clickCount = 0 :=
  ⟨rfl, by decide,
   ((dispatch_iff MouseButton.MOUSE_LEFT (leftPending 1) (tickAt 1500 false false)
      rfl).2.2.1 1 (by decide)).2⟩

/-! ## Timestamps -/

/-- The elapsed-time tests are wrap-safe: for a reference recorded at true time
`r` and a later true time `t` less than `2 ^ 32` ms after it, the unsigned
difference of the wrapped clock values exceeds a threshold exactly when the true
difference does, whether or not the counter rolled over in between. -/
theorem elapsed_wrap_safe (r t th : Nat) (h1 : r ≤ t) (h2 : t - r < ULONG_MOD) :
    elapsed (millis t) (millis r) > th ↔ t - r > th := by
  rw [elapsed_millis_lt r t h1 (by omega)]

set_option maxRecDepth 100000 in
/-- Claim C12, evaluated where the code departs from it.  In `wrapRun` the
pass at clock value 1500 resolves a single click and stores 0 in
`leftFirstClickTime`; no pass so far had the clock value 0.  After the counter
has wrapped, the press at clock value 100 is accepted, its burst-reset test
`100 - 0 > 400` fails, and the window start stays 0 with the count 1.  The
resolution test then fires at clock value 410, only 310 ms after that press:
on the true times of the press and of that pass, `(t - r) > 400` is false. -/
theorem window_reference_not_recorded :
    (stateAt initialState wrapRun 3).systemState.leftFirstClickTime = 0
    ∧ 0 ∉ clockValues (wrapRun.take 3)
    ∧ pressesAt MouseButton.MOUSE_LEFT initialState wrapRun 3 = 1
    ∧ timeAt wrapRun 3 = ULONG_MOD + 100
    ∧ (stateAt initialState wrapRun 4).systemState.leftClickCount = 1
    ∧ (stateAt initialState wrapRun 4).systemState.leftFirstClickTime = 0
    ∧ clickList (run initialState (wrapRun.take 6)).2 = [MouseButton.MOUSE_LEFT]
    ∧ clickList (run initialState wrapRun).2 = [MouseButton.MOUSE_LEFT, MouseButton.MOUSE_LEFT]
    ∧ timeAt wrapRun 6 - timeAt wrapRun 3 = 310
    ∧ ¬ (timeAt wrapRun 6 - timeAt wrapRun 3 > MULTI_CLICK_TIMEOUT) := by
  refine ⟨by decide, by decide, by decide, by decide, by decide, by decide, by decide,
    by decide, by decide, by decide⟩

set_option maxRecDepth 100000 in
/-- Claim C14, evaluated where the code departs from it.  `wrapRun` has
non-decreasing times and starts from the initial state.  Its pass 3 (clock
value 100, after the counter wrapped) starts with `leftClickCount = 0` and
accepts a press edge; the edge leaves `leftClickCount = 1`, so it is the first
edge of a burst, but `leftFirstClickTime` is left at the 0 stored by the last
resolution, not at the clock value 100 of the edge. -/
theorem first_edge_keeps_stale_window_start :
    TimeOrdered wrapRun
    ∧ (stateAt initialState wrapRun 3).systemState.leftClickCount = 0
    ∧ pressesAt MouseButton.MOUSE_LEFT initialState wrapRun 3 = 1
    ∧ (stateAt initialState wrapRun 4).systemState.leftClickCount = 1
    ∧ millis (timeAt wrapRun 3) = 100
    ∧ (stateAt initialState wrapRun 4).systemState.leftFirstClickTime = 0
    ∧ (stateAt initialState wrapRun 4).systemState.leftFirstClickTime
        ≠ millis (timeAt wrapRun 3) := by
  refine ⟨by unfold TimeOrdered; decide, by decide, by decide, by decide, by decide, by decide,
    by decide⟩

set_option maxRecDepth 100000 in
/-- Claim C17, evaluated where the code departs from it.  `lateSecondPressRun`
is a run of connected passes with non-decreasing times from the initial state.
The press at 1000 is accepted and is still pending (count 1, nothing sent) when
the pass at 1408 starts, because the released pass at 1400 is exactly 400 ms
after the window start and does not resolve.  The pass at 1408 accepts a second
press, finds the window expired and executes the burst reset on a count of 1.
The whole run accepts two presses and sends one primary click: the first press
is never part of a count handed to the dispatcher. -/
theorem burst_reset_drops_pending_press :
    TimeOrdered lateSecondPressRun
    ∧ (∀ i ∈ lateSecondPressRun, i.connected = true ∧ i.connectedAtClick = true)
    ∧ leftPressTimes initialState lateSecondPressRun = [1000, 1408]
    ∧ (stateAt initialState lateSecondPressRun 3).systemState.leftClickCount = 1
    ∧ gestures (run initialState (lateSecondPressRun.take 3)).2 = []
    ∧ handedOver MouseButton.MOUSE_LEFT (stateAt initialState lateSecondPressRun 3)
        (tickAt 1408 true false) = none
    ∧ (stateAt initialState lateSecondPressRun 4).systemState.leftFirstClickTime = 1408
    ∧ (stateAt initialState lateSecondPressRun 4).systemState.leftClickCount = 1
    ∧ gestures (run initialState lateSecondPressRun).2
        = [Gesture.click MouseButton.MOUSE_LEFT] := by
  refine ⟨by unfold TimeOrdered; decide, by decide, by decide, by decide, by decide, by decide,
    by decide, by decide, by decide⟩

/-! ## Bound on the click counts -/

/-- Without wrap the unsigned difference is the plain difference. -/
theorem elapsed_of_le (r t : Nat) (h : r ≤ t) (ht : t < ULONG_MOD) : elapsed t r = t - r := by
  unfold elapsed
  unfold ULONG_MOD at ht ⊢
  norm_num at ht ⊢
  omega

/-- The clock value of a time below `2 ^ 32` is that time. -/
theorem millis_of_lt (t : Nat) (ht : t < ULONG_MOD) : millis t = t :=
  Nat.mod_eq_of_lt ht

/-- The invariant keeps holding as time passes. -/
theorem CountInv_mono (v : ButtonView) (T T' : Nat) (h : CountInv v T) (hT : T ≤ T') :
    CountInv v T' :=
  ⟨le_trans h.1 hT, le_trans h.2.1 hT, h.2.2.1, h.2.2.2⟩

/-- The handler step keeps the invariant: it changes nothing or stores 0 in the
count and in the window start. -/
theorem CountInv_resolveStep (v : ButtonView) (T ms : Nat) (h : CountInv v T) :
    CountInv (resolveStep v ms) T := by
  unfold resolveStep
  split_ifs
  · refine ⟨Nat.zero_le _, h.2.1, le_refl _, fun h1 => ?_⟩
    simp at h1
  · exact h

/-- The debouncer step at a time `t` below `2 ^ 32` and not before `T` keeps
the invariant, now for the time `t`. -/
theorem CountInv_debounceStep (v : ButtonView) (T t : Nat) (low : Bool) (h : CountInv v T)
    (hT : T ≤ t) (ht : t < ULONG_MOD) : CountInv (debounceStep v (millis t) low) t := by
  obtain ⟨h1, h2, h3, h4⟩ := h
  rw [millis_of_lt t ht]
  unfold debounceStep
  split_ifs with hacc hexp hrel
  · -- accepted, window expired
    refine ⟨le_refl _, le_refl _, by norm_num, fun _ => ⟨le_refl _, Nat.le_add_right _ _, ?_⟩⟩
    simp
  · -- accepted inside the window
    have hgap : elapsed t v.lastPress > DEBOUNCE_DELAY := by
      unfold accepts at hacc
      simp only [Bool.and_eq_true, decide_eq_true_eq] at hacc
      exact hacc.2
    rw [elapsed_of_le v.lastPress t (le_trans h2 hT) ht] at hgap
    rw [elapsed_of_le v.firstClickTime t (le_trans h1 hT) ht] at hexp
    unfold DEBOUNCE_DELAY at hgap
    unfold MULTI_CLICK_TIMEOUT at hexp
    have hft := le_trans h1 hT
    refine ⟨hft, le_refl _, ?_, fun _ => ⟨hft, ?_, ?_⟩⟩
    · show 0 ≤ v.clickCount + 1
      omega
    · show t ≤ v.firstClickTime + 400
      omega
    · show 51 * (v.clickCount + 1) ≤ (t : Int) - (v.firstClickTime : Int) + 51
      rcases lt_or_le v.clickCount 1 with hc0 | hc1
      · have : v.clickCount = 0 := by omega
        rw [this]
        omega
      · obtain ⟨_, _, h7⟩ := h4 hc1
        omega
  · exact ⟨le_trans h1 hT, le_trans h2 hT, h3, h4⟩
  · exact ⟨le_trans h1 hT, le_trans h2 hT, h3, h4⟩

/-- The invariant bounds the count by 8. -/
theorem CountInv_bound (v : ButtonView) (T : Nat) (h : CountInv v T) :
    0 ≤ v.clickCount ∧ v.clickCount ≤ 8 := by
  obtain ⟨_, _, h3, h4⟩ := h
  refine ⟨h3, ?_⟩
  rcases lt_or_le v.clickCount 1 with hc0 | hc1
  · omega
  · obtain ⟨h5, h6, h7⟩ := h4 hc1
    unfold MULTI_CLICK_TIMEOUT at h6
    omega

/-- One pass of `loop` at a time `t` below `2 ^ 32` and not before `T` keeps the
invariant of either button, now for the time `t`. -/
theorem CountInv_loop (b : MouseButton) (g : Globals) (i : Input) (T : Nat)
    (h : CountInv (buttonView b g) T) (hT : T ≤ i.now) (ht : i.now < ULONG_MOD) :
    CountInv (buttonView b (loop g i).1) i.now := by
  cases hc : i.connected
  · rw [loop_disconnected g i hc]
    exact CountInv_mono _ T _ h hT
  · rw [loop_view b g i hc, afterDebounce_view b g i]
    exact CountInv_resolveStep _ _ _ (CountInv_debounceStep _ T _ _ h hT ht)

/-- A run with non-decreasing times below `2 ^ 32`, none before `T`, keeps the
invariant of either button. -/
theorem CountInv_run (b : MouseButton) (ins : List Input) : ∀ (g : Globals) (T : Nat),
    CountInv (buttonView b g) T → (∀ i ∈ ins, T ≤ i.now ∧ i.now < ULONG_MOD) →
    TimeOrdered ins → ∃ T', CountInv (buttonView b (run g ins).1) T' := by
  induction ins with
  | nil => intro g T h _ _; exact ⟨T, h⟩
  | cons i is ih =>
    intro g T h hr hord
    obtain ⟨hT, ht⟩ := hr i (List.mem_cons_self _ _)
    have hstep := CountInv_loop b g i T h hT ht
    have hafter : ∀ x ∈ is, i.now ≤ x.now := (List.pairwise_cons.mp hord).1
    exact ih (loop g i).1 i.now hstep
      (fun x hx => ⟨hafter x hx, (hr x (List.mem_cons_of_mem _ hx)).2⟩)
      (List.pairwise_cons.mp hord).2

set_option maxRecDepth 100000 in
/-- The run `burstRun` takes both click counts to 8. -/
theorem burstRun_counts :
    TimeOrdered burstRun ∧ (∀ i ∈ burstRun, i.now < ULONG_MOD)
    ∧ (run initialState burstRun).1.systemState.leftClickCount = 8
    ∧ (run initialState burstRun).1.systemState.rightClickCount = 8 := by
  refine ⟨by unfold TimeOrdered; decide, by decide, by decide, by decide⟩

/-- Claim C19: With no counter wrap (all times below `2 ^ 32`) and
non-decreasing times, every state reached from the initial state by any
sequence of passes, connected or not and with any pin levels, has
`0 ≤ leftClickCount ≤ 8` and `0 ≤ rightClickCount ≤ 8` (counted presses are more
than 50 ms apart and at most 400 ms after the window start), so the `int`
counters cannot overflow; and counts above 3 for the left button and above 2
for the right button are reached by such a run. -/
theorem clickCount_bounded (ins : List Input) (hord : TimeOrdered ins)
    (hnw : ∀ i ∈ ins, i.now < ULONG_MOD) :
    (0 ≤ (run initialState ins).1.systemState.leftClickCount
      ∧ (run initialState ins).1.systemState.leftClickCount ≤ 8
      ∧ 0 ≤ (run initialState ins).1.systemState.rightClickCount
      ∧ (run initialState ins).1.systemState.rightClickCount ≤ 8)
    ∧ (∃ ins' : List Input, TimeOrdered ins' ∧ (∀ i ∈ ins', i.now < ULONG_MOD)
        ∧ 3 < (run initialState ins').1.systemState.leftClickCount
        ∧ 2 < (run initialState ins').1.systemState.rightClickCount) := by
  have h0 : ∀ b, CountInv (buttonView b initialState) 0 := by
    intro b
    cases b <;>
      exact ⟨le_refl _, le_refl _, le_refl _, fun h => absurd h (by decide)⟩
  have hr : ∀ i ∈ ins, 0 ≤ i.now ∧ i.now < ULONG_MOD := fun i hi => ⟨Nat.zero_le _, hnw i hi⟩
  obtain ⟨Tl, hl⟩ := CountInv_run MouseButton.MOUSE_LEFT ins initialState 0
    (h0 MouseButton.MOUSE_LEFT) hr hord
  obtain ⟨Tr, hrt⟩ := CountInv_run MouseButton.MOUSE_RIGHT ins initialState 0
    (h0 MouseButton.MOUSE_RIGHT) hr hord
  have bl := CountInv_bound _ _ hl
  have br := CountInv_bound _ _ hrt
  refine ⟨⟨bl.1, bl.2, br.1, br.2⟩, burstRun, burstRun_counts.1, burstRun_counts.2.1, ?_, ?_⟩
  · rw [burstRun_counts.2.2.1]; decide
  · rw [burstRun_counts.2.2.2]; decide

set_option maxRecDepth 100000 in
/-- Witness for C19: the run `bounceRun` has non-decreasing times below
`2 ^ 32`, and the left count it ends with is within the bound. -/
theorem clickCount_bounded_witness :
    TimeOrdered bounceRun ∧ (∀ i ∈ bounceRun, i.now < ULONG_MOD)
    ∧ (run initialState bounceRun).1.systemState.leftClickCount ≤ 8 :=
  ⟨by unfold TimeOrdered; decide, by decide,
   (clickCount_bounded bounceRun (by unfold TimeOrdered; decide) (by decide)).1.2.1⟩

/-! ## Bound on the accumulators -/

/-- A 16-bit reading keeps a magnitude of at most 32768 through the deadzone. -/
theorem deadzone_bounds (v : Int) (h : IsInt16 v) :
    -32768 ≤ (deadzone v : ℚ) ∧ (deadzone v : ℚ) ≤ 32768 := by
  obtain ⟨h1, h2⟩ := h
  unfold deadzone
  split_ifs
  · norm_num
  · constructor
    · exact_mod_cast h1
    · have : v ≤ 32768 := by omega
      exact_mod_cast this

/-- The routine `processIMU` on a 16-bit sample keeps the accumulators within
their bounds and sends only moves whose arguments fit. -/
theorem processIMU_bounded (g : Globals) (m : Motion6) (hb : FiltersBounded g)
    (hx : IsInt16 m.gx) (hy : IsInt16 m.gy) :
    FiltersBounded (processIMU g m).1 ∧ MovesFit (processIMU g m).2 := by
  obtain ⟨bx, by', bs⟩ := hb
  obtain ⟨dx1, dx2⟩ := deadzone_bounds m.gx hx
  obtain ⟨dy1, dy2⟩ := deadzone_bounds m.gy hy
  rw [abs_le] at bx by' bs
  unfold FILTER_BOUND GYRO_SENSITIVITY at bx by'
  unfold SCROLL_BOUND SCROLL_SENSITIVITY FILTER_BOUND GYRO_SENSITIVITY at bs
  cases hf : g.systemState.cursorFrozen
  · cases hs : g.systemState.scrollMode
    · rw [processIMU_cursor g m hf hs]
      have ex : |SMOOTHING * ((deadzone m.gx : ℚ) * GYRO_SENSITIVITY * (X_AXIS_CORRECTION : ℚ))
          + (1 - SMOOTHING) * g.filteredX| ≤ FILTER_BOUND := by
        rw [abs_le]
        unfold FILTER_BOUND SMOOTHING GYRO_SENSITIVITY X_AXIS_CORRECTION
        push_cast
        constructor <;> linarith [bx.1, bx.2]
      have ey : |SMOOTHING * ((deadzone m.gy : ℚ) * GYRO_SENSITIVITY * (Y_AXIS_CORRECTION : ℚ))
          + (1 - SMOOTHING) * g.filteredY| ≤ FILTER_BOUND := by
        rw [abs_le]
        unfold FILTER_BOUND SMOOTHING GYRO_SENSITIVITY Y_AXIS_CORRECTION
        push_cast
        constructor <;> linarith [by'.1, by'.2]
      have hB : FILTER_BOUND < 128 := by
        unfold FILTER_BOUND GYRO_SENSITIVITY
        norm_num
      refine ⟨⟨ex, ey, ?_⟩, ?_⟩
      · show |g.scrollY| ≤ SCROLL_BOUND
        rw [abs_le]
        unfold SCROLL_BOUND SCROLL_SENSITIVITY FILTER_BOUND GYRO_SENSITIVITY
        exact bs
      · intro e he
        simp only [moveList, List.mem_singleton] at he
        subst he
        exact ⟨lt_of_le_of_lt ex hB, lt_of_le_of_lt ey hB, by norm_num, by norm_num⟩
    · rw [processIMU_scroll g m hf hs]
      have es : |SCROLL_SMOOTHING
            * ((deadzone m.gy : ℚ) * GYRO_SENSITIVITY * (Y_AXIS_CORRECTION : ℚ))
            * SCROLL_SENSITIVITY + (1 - SCROLL_SMOOTHING) * g.scrollY| ≤ SCROLL_BOUND := by
        rw [abs_le]
        unfold SCROLL_BOUND FILTER_BOUND SCROLL_SMOOTHING SCROLL_SENSITIVITY GYRO_SENSITIVITY
          Y_AXIS_CORRECTION
        push_cast
        constructor <;> linarith [bs.1, bs.2]
      have hS : SCROLL_BOUND < 128 := by
        unfold SCROLL_BOUND SCROLL_SENSITIVITY FILTER_BOUND GYRO_SENSITIVITY
        norm_num
      refine ⟨⟨?_, ?_, es⟩, ?_⟩
      · show |g.filteredX| ≤ FILTER_BOUND
        rw [abs_le]
        unfold FILTER_BOUND GYRO_SENSITIVITY
        exact bx
      · show |g.filteredY| ≤ FILTER_BOUND
        rw [abs_le]
        unfold FILTER_BOUND GYRO_SENSITIVITY
        exact by'
      · intro e he
        split_ifs at he
        · simp only [moveList, List.mem_singleton] at he
          subst he
          refine ⟨by norm_num, by norm_num, ?_, by norm_num⟩
          show |-(_ : ℚ)| < 128
          rw [abs_neg]
          exact lt_of_le_of_lt es hS
        · simp [moveList] at he
  · rw [processIMU_frozen g m hf]
    refine ⟨⟨?_, ?_, ?_⟩, ?_⟩
    · rw [abs_le]; unfold FILTER_BOUND GYRO_SENSITIVITY; exact bx
    · rw [abs_le]; unfold FILTER_BOUND GYRO_SENSITIVITY; exact by'
    · rw [abs_le]; unfold SCROLL_BOUND SCROLL_SENSITIVITY FILTER_BOUND GYRO_SENSITIVITY
      exact bs
    · intro e he
      simp [moveList] at he

/-- The button and click routines leave `filteredX` and `filteredY` alone, and
leave `scrollY` alone or set it to 0. -/
theorem buttons_filters (g : Globals) (ms : Nat) (low c : Bool) :
    ((processLeftButton g ms low).1.filteredX = g.filteredX
      ∧ (processLeftButton g ms low).1.filteredY = g.filteredY
      ∧ (processLeftButton g ms low).1.scrollY = g.scrollY)
    ∧ ((processRightButton g ms low).1.filteredX = g.filteredX
      ∧ (processRightButton g ms low).1.filteredY = g.filteredY
      ∧ (processRightButton g ms low).1.scrollY = g.scrollY)
    ∧ ((handleLeftClicks g ms c).1.filteredX = g.filteredX
      ∧ (handleLeftClicks g ms c).1.filteredY = g.filteredY
      ∧ ((handleLeftClicks g ms c).1.scrollY = g.scrollY
        ∨ (handleLeftClicks g ms c).1.scrollY = 0))
    ∧ ((handleRightClicks g ms).1.filteredX = g.filteredX
      ∧ (handleRightClicks g ms).1.filteredY = g.filteredY
      ∧ (handleRightClicks g ms).1.scrollY = g.scrollY) := by
  refine ⟨?_, ?_, ?_, ?_⟩
  · unfold processLeftButton
    dsimp only
    split_ifs <;> exact ⟨rfl, rfl, rfl⟩
  · unfold processRightButton
    dsimp only
    split_ifs <;> exact ⟨rfl, rfl, rfl⟩
  · unfold handleLeftClicks handleLeftSingleClick handleLeftDoubleClick toggleScrollMode
    dsimp only
    cases c <;> split_ifs <;> first
      | exact ⟨rfl, rfl, Or.inl rfl⟩
      | exact ⟨rfl, rfl, Or.inr rfl⟩
  · unfold handleRightClicks toggleCursorFreeze
    dsimp only
    split_ifs <;> exact ⟨rfl, rfl, rfl⟩

/-- Zero is within the scroll bound. -/
theorem scroll_bound_nonneg : |(0 : ℚ)| ≤ SCROLL_BOUND := by
  unfold SCROLL_BOUND SCROLL_SENSITIVITY FILTER_BOUND GYRO_SENSITIVITY
  norm_num

/-- One pass of `loop` on a 16-bit sample keeps the accumulators within their
bounds and sends only moves whose arguments fit. -/
theorem loop_bounded (g : Globals) (i : Input) (hb : FiltersBounded g)
    (hx : IsInt16 i.sample.gx) (hy : IsInt16 i.sample.gy) :
    FiltersBounded (loop g i).1 ∧ MovesFit (loop g i).2 := by
  obtain ⟨p1, p2⟩ := processIMU_bounded g i.sample hb hx hy
  cases hc : i.connected
  · rw [loop_disconnected g i hc]
    refine ⟨hb, fun e he => ?_⟩
    simp [moveList] at he
  · constructor
    · have hl : (loop g i).1
          = (handleRightClicks (handleLeftClicks (afterDebounce g i) (millis i.now)
              i.connectedAtClick).1 (handlerClock MouseButton.MOUSE_RIGHT g i)).1 := by
        simp only [loop, hc, Bool.not_true, Bool.false_eq_true, if_false]
        rfl
      obtain ⟨a1, a2, a3⟩ := (buttons_filters (processIMU g i.sample).1 (millis i.now)
        i.leftLow true).1
      obtain ⟨b1, b2, b3⟩ := (buttons_filters (processLeftButton (processIMU g i.sample).1
        (millis i.now) i.leftLow).1 (millis i.now) i.rightLow true).2.1
      obtain ⟨c1, c2, c3⟩ := (buttons_filters (afterDebounce g i) (millis i.now) true
        i.connectedAtClick).2.2.1
      obtain ⟨d1, d2, d3⟩ := (buttons_filters (handleLeftClicks (afterDebounce g i)
        (millis i.now) i.connectedAtClick).1 (handlerClock MouseButton.MOUSE_RIGHT g i)
        true true).2.2.2
      have hA : (afterDebounce g i).filteredX = (processIMU g i.sample).1.filteredX
          ∧ (afterDebounce g i).filteredY = (processIMU g i.sample).1.filteredY
          ∧ (afterDebounce g i).scrollY = (processIMU g i.sample).1.scrollY := by
        unfold afterDebounce
        exact ⟨b1.trans a1, b2.trans a2, b3.trans a3⟩
      rw [hl]
      unfold FiltersBounded
      rw [d1, d2, d3, c1, c2, hA.1, hA.2.1]
      refine ⟨p1.1, p1.2.1, ?_⟩
      rcases c3 with h | h
      · rw [h, hA.2.2]
        exact p1.2.2
      · rw [h]
        exact scroll_bound_nonneg
    · intro e he
      rw [moveList_loop, hc, if_pos rfl] at he
      exact p2 e he

/-- A run on 16-bit samples keeps the accumulators within their bounds and sends
only moves whose arguments fit. -/
theorem run_bounded (ins : List Input) : ∀ (g : Globals), FiltersBounded g →
    (∀ i ∈ ins, IsInt16 i.sample.gx ∧ IsInt16 i.sample.gy) →
    FiltersBounded (run g ins).1 ∧ MovesFit (run g ins).2 := by
  induction ins with
  | nil =>
    intro g hb _
    refine ⟨hb, fun e he => ?_⟩
    simp [run, moveList] at he
  | cons i is ih =>
    intro g hb h16
    obtain ⟨hx, hy⟩ := h16 i (List.mem_cons_self _ _)
    obtain ⟨s1, s2⟩ := loop_bounded g i hb hx hy
    obtain ⟨r1, r2⟩ := ih (loop g i).1 s1 (fun x hx => h16 x (List.mem_cons_of_mem _ hx))
    refine ⟨r1, fun e he => ?_⟩
    simp only [run, moveList_append, List.mem_append] at he
    rcases he with h | h
    · exact s2 e h
    · exact r2 e h

/-- Claim C20: Over exact rationals, starting from the initial state (all
accumulators 0), after any sequence of passes with arbitrary 16-bit gyro
readings, arbitrary pin levels (hence arbitrary interleaved mode toggles) and
arbitrary connection status, `|filteredX| ≤ 0.0022 * 32768`,
`|filteredY| ≤ 0.0022 * 32768` (72.0896) and `|scrollY| ≤ 0.15 * 0.0022 * 32768`;
and every argument of every move sent has magnitude below 128, within the
signed 8-bit range.  Both toggles keep the bounds as well. -/
theorem accumulators_bounded (ins : List Input)
    (h16 : ∀ i ∈ ins, IsInt16 i.sample.gx ∧ IsInt16 i.sample.gy) :
    |(run initialState ins).1.filteredX| ≤ (22 / 10000) * 32768
    ∧ |(run initialState ins).1.filteredY| ≤ (22 / 10000) * 32768
    ∧ |(run initialState ins).1.scrollY| ≤ (15 / 100) * ((22 / 10000) * 32768)
    ∧ MovesFit (run initialState ins).2
    ∧ (∀ g : Globals, FiltersBounded g →
        FiltersBounded (toggleScrollMode g).1 ∧ FiltersBounded (toggleCursorFreeze g).1) := by
  have h0 : FiltersBounded initialState := by
    unfold FiltersBounded SCROLL_BOUND FILTER_BOUND SCROLL_SENSITIVITY GYRO_SENSITIVITY
      initialState
    norm_num
  obtain ⟨⟨b1, b2, b3⟩, hm⟩ := run_bounded ins initialState h0 h16
  unfold FILTER_BOUND GYRO_SENSITIVITY at b1 b2
  unfold SCROLL_BOUND SCROLL_SENSITIVITY FILTER_BOUND GYRO_SENSITIVITY at b3
  refine ⟨b1, b2, b3, hm, fun g hg => ⟨?_, ?_⟩⟩
  · exact ⟨hg.1, hg.2.1, scroll_bound_nonneg⟩
  · exact hg

/-- Witness for C20: two passes at full-scale readings, `-32768` and `32767`,
leave `filteredX` within the bound. -/
theorem accumulators_bounded_witness :
    (∀ i ∈ [motionTick 1000 false false (-32768) 32767,
            motionTick 1008 false false 32767 (-32768)],
      IsInt16 i.sample.gx ∧ IsInt16 i.sample.gy)
    ∧ |(run initialState [motionTick 1000 false false (-32768) 32767,
          motionTick 1008 false false 32767 (-32768)]).1.filteredX| ≤ (22 / 10000) * 32768 :=
  ⟨by simp [motionTick, IsInt16],
   (accumulators_bounded [motionTick 1000 false false (-32768) 32767,
      motionTick 1008 false false 32767 (-32768)] (by simp [motionTick, IsInt16])).1⟩

/-! ## What an accepted press edge does to the count and the window start -/

/-- A connected pass that accepts a press edge of button `b` leaves the button
pressed, records the clock value as the time of the last press, and either finds
the window expired and leaves the count at 1 with the window start at the clock
value, or leaves the window start alone and the count one higher. -/
theorem accepted_edge_effect (b : MouseButton) (g : Globals) (i : Input)
    (hc : i.connected = true) (hp : presses b (loop g i).2 = 1) :
    buttonView b (loop g i).1
      = (if elapsed (millis i.now) (buttonView b g).firstClickTime > MULTI_CLICK_TIMEOUT then
          { pressed := true, lastPress := millis i.now, firstClickTime := millis i.now
            clickCount := 1 }
        else
          { pressed := true, lastPress := millis i.now
            firstClickTime := (buttonView b g).firstClickTime
            clickCount := (buttonView b g).clickCount + 1 }) := by
  have hacc := (loop_button b g i).1
  rw [hp, hc] at hacc
  have ha : accepts (buttonView b g) (millis i.now) (rawLow b i) = true := by
    by_contra hne
    simp only [Bool.true_and] at hacc
    rw [if_neg hne] at hacc
    omega
  have hd : debounceStep (buttonView b g) (millis i.now) (rawLow b i)
      = (if elapsed (millis i.now) (buttonView b g).firstClickTime > MULTI_CLICK_TIMEOUT then
          { pressed := true, lastPress := millis i.now, firstClickTime := millis i.now
            clickCount := 1 }
        else
          { pressed := true, lastPress := millis i.now
            firstClickTime := (buttonView b g).firstClickTime
            clickCount := (buttonView b g).clickCount + 1 }) := by
    unfold debounceStep
    rw [if_pos ha]
    split_ifs <;> simp
  have hpr : (debounceStep (buttonView b g) (millis i.now) (rawLow b i)).pressed = true := by
    rw [hd]
    split_ifs <;> rfl
  rw [loop_view b g i hc, afterDebounce_view b g i]
  have hres : resolves (debounceStep (buttonView b g) (millis i.now) (rawLow b i))
      (handlerClock b g i) = false := by
    simp [resolves, hpr]
  simp only [resolveStep, hres, Bool.false_eq_true, if_false]
  exact hd

end AirMouse
